import Mathlib

set_option maxRecDepth 400000
set_option maxHeartbeats 2000000

/-!
Verification development for the mezmorize memoization engine
(`mezmorize/__init__.py`): a shallow embedding of the key-derivation and
versioning core — argument canonicalization (`Cache._gen_args`), function
identity resolution (`function_namespace`), the version registry
(`Cache._memoize_version`), cache-key hashing
(`Cache._memoize_make_cache_key`) and the memoize/invalidation entry points
(`Cache.memoize`, `Cache.delete_memoized`, `Cache.delete_memoized_verhash`).

Python values appearing as call arguments are modelled by `PyVal`; the
storage backend (an external collaborator exposing get/set/delete/getMany/
setMany/deleteMany) is modelled as a partial map from string keys to stored
entries.  The non-deterministic `uuid.uuid4()` draws are modelled by an
explicit supply of 16-byte lists threaded through the state; `uuid.uuid3`,
`hashlib.md5` and `base64.b64encode` are implemented in full so that every
definition is executable.

The embedding follows the PY3 code path of the source (the `six.PY3` flag):
`getfullargspec` is available, `__qualname__` is always present on functions
and methods (so the `AttributeError` fallback in `function_namespace`, a PY2
path, is dead code), and `str.maketrans` is used for namespace cleaning.
-/

/-! ### 32-bit arithmetic and MD5 (hashlib.md5) -/

def m32 (x : Nat) : Nat := x % 4294967296

def rotl (x n : Nat) : Nat := (m32 (x <<< n)) ||| (x >>> (32 - n))

def md5S : List Nat :=
  [7, 12, 17, 22, 7, 12, 17, 22, 7, 12, 17, 22, 7, 12, 17, 22,
   5, 9, 14, 20, 5, 9, 14, 20, 5, 9, 14, 20, 5, 9, 14, 20,
   4, 11, 16, 23, 4, 11, 16, 23, 4, 11, 16, 23, 4, 11, 16, 23,
   6, 10, 15, 21, 6, 10, 15, 21, 6, 10, 15, 21, 6, 10, 15, 21]

def md5K : List Nat :=
  [0xd76aa478, 0xe8c7b756, 0x242070db, 0xc1bdceee,
   0xf57c0faf, 0x4787c62a, 0xa8304613, 0xfd469501,
   0x698098d8, 0x8b44f7af, 0xffff5bb1, 0x895cd7be,
   0x6b901122, 0xfd987193, 0xa679438e, 0x49b40821,
   0xf61e2562, 0xc040b340, 0x265e5a51, 0xe9b6c7aa,
   0xd62f105d, 0x02441453, 0xd8a1e681, 0xe7d3fbc8,
   0x21e1cde6, 0xc33707d6, 0xf4d50d87, 0x455a14ed,
   0xa9e3e905, 0xfcefa3f8, 0x676f02d9, 0x8d2a4c8a,
   0xfffa3942, 0x8771f681, 0x6d9d6122, 0xfde5380c,
   0xa4beea44, 0x4bdecfa9, 0xf6bb4b60, 0xbebfbc70,
   0x289b7ec6, 0xeaa127fa, 0xd4ef3085, 0x04881d05,
   0xd9d4d039, 0xe6db99e5, 0x1fa27cf8, 0xc4ac5665,
   0xf4292244, 0x432aff97, 0xab9423a7, 0xfc93a039,
   0x655b59c3, 0x8f0ccc92, 0xffeff47d, 0x85845dd1,
   0x6fa87e4f, 0xfe2ce6e0, 0xa3014314, 0x4e0811a1,
   0xf7537e82, 0xbd3af235, 0x2ad7d2bb, 0xeb86d391]

def toLE : Nat → Nat → List Nat
  | 0, _ => []
  | k + 1, x => (x % 256) :: toLE k (x / 256)

def leWords : List Nat → List Nat
  | b0 :: b1 :: b2 :: b3 :: rest =>
      (b0 + 256 * b1 + 65536 * b2 + 16777216 * b3) :: leWords rest
  | _ => []

def chunks16 : List Nat → List (List Nat)
  | w0 :: w1 :: w2 :: w3 :: w4 :: w5 :: w6 :: w7 ::
    w8 :: w9 :: w10 :: w11 :: w12 :: w13 :: w14 :: w15 :: rest =>
      [w0, w1, w2, w3, w4, w5, w6, w7, w8, w9, w10, w11, w12, w13, w14, w15]
        :: chunks16 rest
  | _ => []

def md5pad (msg : List Nat) : List Nat :=
  let len := msg.length
  let padlen := (119 - (len % 64)) % 64
  msg ++ [128] ++ List.replicate padlen 0 ++
    toLE 8 ((8 * len) % 18446744073709551616)

def md5step (M : List Nat) (st : Nat × Nat × Nat × Nat) (i : Nat) :
    Nat × Nat × Nat × Nat :=
  let A := st.1
  let B := st.2.1
  let C := st.2.2.1
  let D := st.2.2.2
  let Fg : Nat × Nat :=
    if i < 16 then ((B &&& C) ||| ((B ^^^ 4294967295) &&& D), i)
    else if i < 32 then
      ((D &&& B) ||| ((D ^^^ 4294967295) &&& C), (5 * i + 1) % 16)
    else if i < 48 then (B ^^^ C ^^^ D, (3 * i + 5) % 16)
    else (C ^^^ (B ||| (D ^^^ 4294967295)), (7 * i) % 16)
  let F2 := m32 (Fg.1 + A + md5K.getD i 0 + M.getD Fg.2 0)
  (D, m32 (B + rotl F2 (md5S.getD i 0)), B, C)

def md5chunk (st : Nat × Nat × Nat × Nat) (M : List Nat) :
    Nat × Nat × Nat × Nat :=
  let r := (List.range 64).foldl (md5step M) st
  (m32 (st.1 + r.1), m32 (st.2.1 + r.2.1), m32 (st.2.2.1 + r.2.2.1),
   m32 (st.2.2.2 + r.2.2.2))

def md5 (msg : List Nat) : List Nat :=
  let blocks := chunks16 (leWords (md5pad msg))
  let r := blocks.foldl md5chunk (0x67452301, 0xefcdab89, 0x98badcfe, 0x10325476)
  toLE 4 r.1 ++ toLE 4 r.2.1 ++ toLE 4 r.2.2.1 ++ toLE 4 r.2.2.2

/-! ### base64.b64encode and UTF-8 encoding -/

def b64alphabet : List Char :=
  ("ABCDEFGHIJKLMNOPQRSTUVWXYZabcdefghijklmnopqrstuvwxyz0123456789+/").data

def b64group (n : Nat) : Char := b64alphabet.getD n ('A')

def b64encodeChars : List Nat → List Char
  | b0 :: b1 :: b2 :: rest =>
      b64group (b0 / 4) :: b64group ((b0 % 4) * 16 + b1 / 16) ::
      b64group ((b1 % 16) * 4 + b2 / 64) :: b64group (b2 % 64) ::
      b64encodeChars rest
  | [b0, b1] =>
      [b64group (b0 / 4), b64group ((b0 % 4) * 16 + b1 / 16),
       b64group ((b1 % 16) * 4), '=']
  | [b0] => [b64group (b0 / 4), b64group ((b0 % 4) * 16), '=', '=']
  | [] => []

def b64encode (bs : List Nat) : String := String.mk (b64encodeChars bs)

/-- UTF-8 encoding of a single code point (`ENCODING` is utf-8). -/
def utf8Char (n : Nat) : List Nat :=
  if n < 128 then [n]
  else if n < 2048 then [192 + n / 64, 128 + n % 64]
  else if n < 65536 then [224 + n / 4096, 128 + (n / 64) % 64, 128 + n % 64]
  else [240 + n / 262144, 128 + (n / 4096) % 64, 128 + (n / 64) % 64,
        128 + n % 64]

def utf8 (s : String) : List Nat :=
  s.data.foldl (fun acc c => acc ++ utf8Char c.toNat) []

/-! ### uuid.uuid3 (used for namespace-seeded version tokens) -/

def NAMESPACE_DNS : List Nat :=
  [0x6b, 0xa7, 0xb8, 0x10, 0x9d, 0xad, 0x11, 0xd1,
   0x80, 0xb4, 0x00, 0xc0, 0x4f, 0xd4, 0x30, 0xc8]

/-- `uuid.uuid3(ns, name).bytes`: the MD5 of the namespace UUID's bytes
followed by the encoded name, with the version (3) and variant bits set
exactly as `uuid.UUID(bytes=..., version=3)` sets them. -/
def uuid3bytes (nsBytes : List Nat) (name : String) : List Nat :=
  (md5 (nsBytes ++ utf8 name)).enum.map (fun p =>
    if p.1 = 6 then (p.2 &&& 15) ||| 48
    else if p.1 = 8 then (p.2 &&& 63) ||| 128
    else p.2)

/-! ### Python values and their repr/str rendering -/

/-- Python values that appear as memoized-call arguments or cached results:
`None`, ints, strings, and opaque objects identified by their `repr`
string. -/
inductive PyVal where
  | none : PyVal
  | int (n : Int) : PyVal
  | str (s : String) : PyVal
  | obj (rep : String) : PyVal
deriving DecidableEq

/-- Python `repr` of a value.  For strings the single-quoted form (the
development only ever reprs strings without quotes or escapes in them);
for objects, the object's own repr string. -/
def pyRepr : PyVal → String
  | PyVal.none => "None"
  | PyVal.int n => toString n
  | PyVal.str s => "'" ++ s ++ "'"
  | PyVal.obj r => r

/-- Python `str` of a tuple of values, e.g. `(1, 2)`, `(1,)`, `()` —
the rendering used by `'{0}{1}{2}'.format(altfname, keyargs, keykwargs)`. -/
def tupleStr (vs : List PyVal) : String :=
  match vs with
  | [] => "()"
  | [v] => "(" ++ pyRepr v ++ ",)"
  | v :: rest =>
      "(" ++ pyRepr v ++
        (rest.foldl (fun acc w => acc ++ ", " ++ pyRepr w) ("")) ++ ")"

/-- Python `str` of a kwargs dict, e.g. `{}` or `{'b': 2, 'c': 3}`. -/
def dictStr (kvs : List (String × PyVal)) : String :=
  match kvs with
  | [] => "\x7b\x7d"
  | (k, v) :: rest =>
      "\x7b'" ++ k ++ "': " ++ pyRepr v ++
        (rest.foldl (fun acc p => acc ++ ", '" ++ p.1 ++ "': " ++ pyRepr p.2)
          ("")) ++ "\x7d"

/-! ### Namespace cleaning (`get_namespace`, `delchars`) -/

/-- CPython `str.isalnum` restricted to the Latin-1 range: ASCII digits and
letters, the Latin-1 superscripts/fractions/ordinals, and the accented
letters (excluding `×` 0xD7 and `÷` 0xF7).  Only code points 0–255 matter
because `delchars` is built from `map(chr, range(256))`. -/
def pyIsAlnumLatin1 (n : Nat) : Bool :=
  (48 ≤ n && n ≤ 57) || (65 ≤ n && n ≤ 90) || (97 ≤ n && n ≤ 122) ||
  n == 170 || n == 178 || n == 179 || n == 181 || n == 185 || n == 186 ||
  n == 188 || n == 189 || n == 190 ||
  (192 ≤ n && n ≤ 255 && n != 215 && n != 247)

/-- A character survives `text.translate(trans_tbl)`: the deletion table
holds every `chr(0..255)` that is not `_`, `.` or alphanumeric, so larger
code points always survive. -/
def keepChar (c : Char) : Bool :=
  255 < c.toNat || c == '_' || c == '.' || pyIsAlnumLatin1 c.toNat

/-- `get_namespace(*names)`: join the names with `.` and strip invalid
characters.  (`decode` from `mezmorize.utils` is the identity on `str`
inputs, which is all this engine passes it.) -/
def get_namespace (names : List String) : String :=
  String.mk ((String.intercalate "." names).data.filter keepChar)

/-! ### Python callables (`PyFunc`) and `function_namespace` -/

/-- The introspectable surface of a Python callable that the engine
consumes: `__module__`, `__qualname__`, `getfullargspec` (declared argument
names and default values), `__self__` (with whether it is a class, for
`inspect.isclass`), and whether the object is `callable`.

PY3 functions and bound methods always expose `__qualname__`, so the
`AttributeError` fallback in `function_namespace` (a PY2 path) is not
modelled.  Note that a `@wraps`-decorated wrapper `decorated(*args,
**kwargs)` reports an empty declared-argument list to `getfullargspec`
(which does not unwrap), while carrying the wrapped function's module and
qualname. -/
structure PyFunc where
  module : String
  qualname : String
  argNames : List String
  defaults : List PyVal
  self_ : Option PyVal
  selfIsClass : Bool
  callable_ : Bool
deriving DecidableEq

/-- `function_namespace(f, *args)`: the function-scoped namespace and, for
instance-bound or `self`-style calls, the instance-scoped namespace. -/
def function_namespace (f : PyFunc) (args : List PyVal) :
    String × Option String :=
  let m_args := f.argNames
  let m_arg := if !args.isEmpty && !m_args.isEmpty then m_args.headD ("") else ""
  let arg : PyVal := (args.head?).getD PyVal.none
  let not_class := f.self_.isSome && !f.selfIsClass
  let is_self := m_arg == "self"
  let name := f.qualname
  let ns := get_namespace [f.module, name]
  if not_class || is_self then
    let instanceVal : PyVal :=
      if not_class then (f.self_).getD PyVal.none else arg
    (ns, some (get_namespace [f.module, name, pyRepr instanceVal]))
  else
    (ns, Option.none)

/-! ### Argument canonicalization (`Cache._gen_args`) -/

/-- `kwargs.get(name)`: `None` both when the key is absent and when the
stored value is `None` — the engine cannot distinguish the two. -/
def kwGet (kwargs : List (String × PyVal)) (name : String) : PyVal :=
  match kwargs.find? (fun p => p.1 == name) with
  | some p => p.2
  | Option.none => PyVal.none

/-- The `defaults` dict of `_gen_args`:
`dict(zip(reversed(m_args), reversed(_defaults)))`, i.e. default values
aligned to the last declared parameters; on duplicate names the pair listed
last in iteration order wins, which is the earliest declared parameter. -/
def declaredDefault (m_args : List String) (ds : List PyVal) (name : String) :
    Option PyVal :=
  (((List.zip m_args.reverse ds.reverse).reverse).find?
    (fun p => p.1 == name)).map (fun p => p.2)

/-- `defaults.get(name)` of `_gen_args`: `None` when absent. -/
def dfGet (m_args : List String) (ds : List PyVal) (name : String) : PyVal :=
  (declaredDefault m_args ds name).getD PyVal.none

/-- The loop body of `_gen_args`, walking the declared parameter names with
the running index `i` and the keyword-consumption `counter`.  The first
parameter named `self`/`cls` is replaced by `repr(args[0])` (the Python code
would raise `IndexError` on an empty `args` there; every theorem below
supplies a non-empty `args` in that case).  A keyword or default value equal
to `None` is skipped by the `is not None` tests of the source. -/
def gen_args_from (f : PyFunc) (args : List PyVal)
    (kwargs : List (String × PyVal)) :
    List String → Nat → Nat → List PyVal
  | [], _, _ => []
  | m_arg :: rest, i, counter =>
    if i == 0 && (m_arg == "self" || m_arg == "cls") then
      PyVal.str (pyRepr (args.headD PyVal.none)) ::
        gen_args_from f args kwargs rest (i + 1) counter
    else if kwGet kwargs m_arg ≠ PyVal.none then
      kwGet kwargs m_arg :: gen_args_from f args kwargs rest (i + 1) (counter + 1)
    else if i - counter < args.length then
      args.getD (i - counter) PyVal.none ::
        gen_args_from f args kwargs rest (i + 1) counter
    else if dfGet f.argNames f.defaults m_arg ≠ PyVal.none then
      dfGet f.argNames f.defaults m_arg ::
        gen_args_from f args kwargs rest (i + 1) counter
    else
      PyVal.none :: gen_args_from f args kwargs rest (i + 1) counter

/-- `Cache._gen_args(f, *args, **kwargs)` as the list it yields. -/
def gen_args (f : PyFunc) (args : List PyVal)
    (kwargs : List (String × PyVal)) : List PyVal :=
  gen_args_from f args kwargs f.argNames 0 0

/-! ### The backend store -/

/-- A stored backend entry: the value and the timeout it was stored with
(`Option.none` models a call that let the backend default apply). -/
structure Entry where
  val : PyVal
  timeout : Option Int
deriving DecidableEq

/-- The storage backend, an external collaborator: a map from string keys
to entries.  `Option.none` is the absent sentinel. -/
def Store := String → Option Entry

/-- Backend `get`: returns the Python `None` sentinel when the key is
absent, so a stored `None` value is indistinguishable from a miss. -/
def cacheGet (st : Store) (k : String) : PyVal :=
  match st k with
  | some e => e.val
  | Option.none => PyVal.none

def cacheSet (st : Store) (k : String) (v : PyVal) (t : Option Int) : Store :=
  fun k2 => if k2 = k then some ⟨v, t⟩ else st k2

def cacheDelete (st : Store) (k : String) : Store :=
  fun k2 => if k2 = k then Option.none else st k2

/-- Backend `set_many(mapping, timeout)`: one `set` per pair. -/
def setMany (st : Store) (kvs : List (String × PyVal)) (t : Option Int) :
    Store :=
  kvs.foldl (fun s kv => cacheSet s kv.1 kv.2 t) st

/-! ### The version registry (`Cache._memoize_version`) -/

/-- `Cache._memvname`. -/
def memvname (funcname : String) : String := funcname ++ "_memver"

/-- Modelled from the spec: `mezmorize.utils.decode` is imported by the
engine but its definition is not part of the source snapshot.  The spec
describes version tokens as short strings read back from the backend, so
`decode` is the identity on string values (a bytes-vs-str helper); other
constructors never reach it on the token path. -/
def decode : PyVal → String
  | PyVal.str s => s
  | v => pyRepr v

/-- The supply of `uuid.uuid4()` outcomes: each entry is the 16 bytes of
one fresh random UUID.  Drawn only when the deployment namespace is
empty. -/
def Supply := List (List Nat)

/-- `Cache._memoize_make_version_hash`: with a non-empty namespace the
token is `uuid3(NAMESPACE_DNS, namespace)` — deterministic — else a fresh
`uuid4` is drawn from the supply; either way the token is the first 6
characters of the base64 of the UUID's bytes.  (The `startswith('http')`
branch of the source computes a URL-namespace UUID that the following
non-`elif` `if` immediately overwrites whenever the namespace is non-empty,
so it never contributes.) -/
def memoize_make_version_hash (ns : String) (sup : Supply) : String × Supply :=
  if ns ≠ "" then
    ((b64encode (uuid3bytes NAMESPACE_DNS ns)).take 6, sup)
  else
    ((b64encode (sup.headD (List.replicate 16 0))).take 6, sup.tail)

/-- The `fetch_keys` list of `_memoize_version`: the function-level version
key and, when an instance namespace exists, the instance-level version
key. -/
def version_keys (f : PyFunc) (args : List PyVal) : List String :=
  match function_namespace f args with
  | (fn, some ins) => [memvname fn, memvname ins]
  | (fn, Option.none) => [memvname fn]

/-- `Cache._memoize_version(f, *args, timeout?, reset?)` on the non-delete
path.  Reads the version tokens in one batch, lazily synthesizes any absent
token (marking the registry dirty), then on `reset` regenerates only the
most specific token and writes back only that key; otherwise writes back
all fetched keys when dirty.  Returns `(fname, version_data)` together with
the updated store and supply. -/
def memoize_version (ns : String) (f : PyFunc) (args : List PyVal)
    (timeout : Option Int) (reset : Bool) (st : Store) (sup : Supply) :
    (String × String) × Store × Supply :=
  let fi := function_namespace f args
  let fname := fi.1
  let version_key := memvname fname
  match fi.2 with
  | Option.none =>
    let v0 := cacheGet st version_key
    let d0 : String × Supply × Bool :=
      if v0 = PyVal.none then
        let d := memoize_make_version_hash ns sup
        (d.1, d.2, true)
      else (decode v0, sup, false)
    if reset then
      let d := memoize_make_version_hash ns d0.2.1
      ((fname, d.1), setMany st [(version_key, PyVal.str d.1)] timeout, d.2)
    else
      let st1 :=
        if d0.2.2 then setMany st [(version_key, PyVal.str d0.1)] timeout
        else st
      ((fname, d0.1), st1, d0.2.1)
  | some ins =>
    let ins_key := memvname ins
    let v0 := cacheGet st version_key
    let v1 := cacheGet st ins_key
    let d0 : String × Supply × Bool :=
      if v0 = PyVal.none then
        let d := memoize_make_version_hash ns sup
        (d.1, d.2, true)
      else (decode v0, sup, false)
    let d1 : String × Supply × Bool :=
      if v1 = PyVal.none then
        let d := memoize_make_version_hash ns d0.2.1
        (d.1, d.2, true)
      else (decode v1, d0.2.1, false)
    if reset then
      let d := memoize_make_version_hash ns d1.2.1
      ((fname, d.1), setMany st [(ins_key, PyVal.str d.1)] timeout, d.2)
    else
      let st1 :=
        if d0.2.2 || d1.2.2 then
          setMany st [(version_key, PyVal.str d0.1), (ins_key, PyVal.str d1.1)]
            timeout
        else st
      ((fname, d0.1 ++ d1.1), st1, d1.2.1)

/-- `Cache._memoize_version(f, delete=True)`: delete only the most specific
version key (the early-return branch of the source) and report no version
string. -/
def memoize_version_delete (f : PyFunc) (args : List PyVal) (st : Store) :
    String × Store :=
  let fi := function_namespace f args
  let last_key :=
    match fi.2 with
    | some ins => memvname ins
    | Option.none => memvname fi.1
  (fi.1, cacheDelete st last_key)

/-! ### Cache-key building (`Cache._memoize_make_cache_key`) -/

/-- The closure returned by `Cache._memoize_make_cache_key(make_name,
decorated)`, applied to `(f, *args, **kwargs)`: resolve the version first,
apply the optional name override, canonicalize the arguments when `f` is
callable (raw arguments otherwise), then emit the 16-character base64-MD5
prefix followed by the version data.  `timeout` is
`decorated.cache_timeout`, forwarded to the version write. -/
def make_cache_key (ns : String) (make_name : Option (String → String))
    (timeout : Option Int) (f : PyFunc) (args : List PyVal)
    (kwargs : List (String × PyVal)) (st : Store) (sup : Supply) :
    String × Store × Supply :=
  let r := memoize_version ns f args timeout false st sup
  let fname := r.1.1
  let version_data := r.1.2
  let altfname :=
    match make_name with
    | some g => g fname
    | Option.none => fname
  let ka_kk : String × String :=
    if f.callable_ then (tupleStr (gen_args f args kwargs), dictStr [])
    else (tupleStr args, dictStr kwargs)
  let updated := altfname ++ ka_kk.1 ++ ka_kk.2
  let ck := ((b64encode (md5 (utf8 updated))).take 16) ++ version_data
  (ck, r.2.1, r.2.2)

/-! ### The memoize orchestrator (`decorated`) -/

/-- One call of the `decorated` wrapper produced by `Cache.memoize`:
skip-check, key build, backend read, and on a `None` read compute and store
under the call-time timeout.  `unless_fires` models `callable(unless) and
unless()`; `impl` is the wrapped function's behavior.  The deferred
`addCallback` branch reduces to the synchronous write for plain values. -/
def decorated_call (ns : String) (make_name : Option (String → String))
    (cache_timeout : Option Int) (unless_fires : Bool) (f : PyFunc)
    (impl : List PyVal → List (String × PyVal) → PyVal)
    (args : List PyVal) (kwargs : List (String × PyVal))
    (st : Store) (sup : Supply) : PyVal × Store × Supply :=
  if unless_fires then (impl args kwargs, st, sup)
  else
    let r := make_cache_key ns make_name cache_timeout f args kwargs st sup
    let value := cacheGet r.2.1 r.1
    if value = PyVal.none then
      let v := impl args kwargs
      (v, cacheSet r.2.1 r.1 v cache_timeout, r.2.2)
    else (value, r.2.1, r.2.2)

/-! ### Invalidation entry points -/

/-- The attributes `_memoize` sets on the decorated wrapper and that
`delete_memoized` reads off its argument: the `make_cache_key` closure
(characterized by its captured `make_name` and `decorated.cache_timeout`)
and `uncached`, the original function. -/
structure MemoAttrs where
  make_name : Option (String → String)
  cache_timeout : Option Int
  uncached : PyFunc

/-- An object passed to an invalidation entry point: its callable surface
plus the decoration attributes when it is (or is bound from) a decorated
wrapper — `Option.none` models a plain function, which lacks
`make_cache_key` and `uncached`. -/
structure Target where
  func : PyFunc
  attrs : Option MemoAttrs

/-- `Cache.delete_memoized(f, *args, **kwargs)`.  A non-callable raises
(`DeprecationWarning`) before any backend traffic; with no call arguments
the version registry is reset; with call arguments the exact key is rebuilt
via `f.make_cache_key(f.uncached, *args, **kwargs)` — raising
`AttributeError` when `f` lacks those attributes — and that single key is
deleted. -/
def delete_memoized (ns : String) (t : Target) (args : List PyVal)
    (kwargs : List (String × PyVal)) (st : Store) (sup : Supply) :
    Except String Unit × Store × Supply :=
  if !t.func.callable_ then (Except.error ("DeprecationWarning"), st, sup)
  else if args.isEmpty && kwargs.isEmpty then
    let r := memoize_version ns t.func [] Option.none true st sup
    (Except.ok (), r.2.1, r.2.2)
  else
    match t.attrs with
    | Option.none => (Except.error ("AttributeError"), st, sup)
    | some a =>
      let r := make_cache_key ns a.make_name a.cache_timeout a.uncached
        args kwargs st sup
      (Except.ok (), cacheDelete r.2.1 r.1, r.2.2)

/-- `Cache.delete_memoized_verhash(f)`: raise on a non-callable, else
delete the most specific version key. -/
def delete_memoized_verhash (t : Target) (st : Store) :
    Except String Unit × Store :=
  if !t.func.callable_ then (Except.error ("DeprecationWarning"), st)
  else (Except.ok (), (memoize_version_delete t.func [] st).2)

/-- The `decorated.delete_memoized` attribute assigned by `_memoize`:
`partial(self.delete_memoized, f)` where `f` is the original undecorated
function — which carries no `make_cache_key`/`uncached` attributes. -/
def decorated_delete_target (f : PyFunc) : Target :=
  { func := f, attrs := Option.none }

/-! ### Spec-side notions: valid calls and effective bindings -/

/-- A well-formed Python call of `f`: positional arguments fill a prefix of
the declared parameters, keyword arguments name (pairwise distinct)
parameters outside that prefix, the declared parameter names are distinct,
and a leading `self`/`cls` parameter receives a positional receiver. -/
def ValidCall (f : PyFunc) (args : List PyVal)
    (kwargs : List (String × PyVal)) : Prop :=
  f.argNames.Nodup ∧
  args.length ≤ f.argNames.length ∧
  (kwargs.map (fun p => p.1)).Nodup ∧
  (∀ p ∈ kwargs, p.1 ∈ f.argNames.drop args.length) ∧
  ((f.argNames.headD ("") = "self" ∨ f.argNames.headD ("") = "cls") →
    args ≠ [])

instance (f : PyFunc) (args : List PyVal) (kwargs : List (String × PyVal)) :
    Decidable (ValidCall f args kwargs) := by
  unfold ValidCall
  exact inferInstance

/-- No keyword argument carries the value `None`. -/
def NoNoneKwargs (kwargs : List (String × PyVal)) : Prop :=
  ∀ p ∈ kwargs, p.2 ≠ PyVal.none

instance (kwargs : List (String × PyVal)) : Decidable (NoNoneKwargs kwargs) := by
  unfold NoNoneKwargs
  exact inferInstance

/-- The effective value a call binds to the `i`-th declared parameter,
following Python call semantics: the `i`-th positional argument if there is
one, else the keyword argument named after the parameter, else the declared
default; `Option.none` means the parameter is left unbound. -/
def boundAt (f : PyFunc) (args : List PyVal)
    (kwargs : List (String × PyVal)) (i : Nat) : Option PyVal :=
  if i < args.length then some (args.getD i PyVal.none)
  else
    match kwargs.find? (fun p => p.1 == f.argNames.getD i ("")) with
    | some p => some p.2
    | Option.none => declaredDefault f.argNames f.defaults (f.argNames.getD i (""))

/-- Whether the first declared parameter is the receiver slot. -/
def isSelfHead (f : PyFunc) : Bool :=
  f.argNames.headD ("") == "self" || f.argNames.headD ("") == "cls"

/-- The canonical value `_gen_args` produces for position `i` on a valid
call with no `None`-valued keywords: the receiver's repr at a leading
`self`/`cls` slot, else the effectively bound value (with unbound rendered
as `None`). -/
def canonVal (f : PyFunc) (args : List PyVal)
    (kwargs : List (String × PyVal)) (i : Nat) : PyVal :=
  if i == 0 && isSelfHead f then PyVal.str (pyRepr (args.headD PyVal.none))
  else (boundAt f args kwargs i).getD PyVal.none

/-- The function-scoped namespace, independent of the call arguments. -/
def fname_of (f : PyFunc) : String := get_namespace [f.module, f.qualname]

/-- The deterministic hash component of a cache key (everything except the
version-token suffix), as §4.4 of the spec describes it: the
(possibly name-overridden) namespace, the repr of the canonical argument
tuple and the repr of the (empty) keyword dict, digested by MD5,
base64-encoded and truncated to 16 characters; a non-callable target uses
the raw arguments instead. -/
def key_hash (mn : Option (String → String)) (f : PyFunc)
    (args : List PyVal) (kwargs : List (String × PyVal)) : String :=
  let altfname :=
    match mn with
    | some g => g (fname_of f)
    | Option.none => fname_of f
  let ka_kk : String × String :=
    if f.callable_ then (tupleStr (gen_args f args kwargs), dictStr [])
    else (tupleStr args, dictStr kwargs)
  (b64encode (md5 (utf8 (altfname ++ ka_kk.1 ++ ka_kk.2)))).take 16

/-- The version suffix read off a store in which the needed tokens are
present: the concatenation of the (one or two) stored tokens. -/
def version_join (st : Store) (f : PyFunc) (args : List PyVal) : String :=
  match function_namespace f args with
  | (fn, some ins) =>
      decode (cacheGet st (memvname fn)) ++ decode (cacheGet st (memvname ins))
  | (fn, Option.none) => decode (cacheGet st (memvname fn))

/-- The version key `_memoize_version` resets or deletes: the most specific
one available. -/
def last_version_key (f : PyFunc) (args : List PyVal) : String :=
  match function_namespace f args with
  | (_, some ins) => memvname ins
  | (fn, Option.none) => memvname fn

/-! ### Basic store lemmas -/

theorem cacheGet_cacheSet (st : Store) (k k2 : String) (v : PyVal)
    (t : Option Int) :
    cacheGet (cacheSet st k v t) k2 = if k2 = k then v else cacheGet st k2 := by
  by_cases h : k2 = k <;> simp [cacheGet, cacheSet, h]

theorem cacheSet_app_ne (st : Store) (k k2 : String) (v : PyVal)
    (t : Option Int) (h : k2 ≠ k) : (cacheSet st k v t) k2 = st k2 := by
  simp [cacheSet, h]

theorem cacheDelete_app_ne (st : Store) (k k2 : String) (h : k2 ≠ k) :
    (cacheDelete st k) k2 = st k2 := by
  simp [cacheDelete, h]

theorem setMany_singleton (st : Store) (k : String) (v : PyVal)
    (t : Option Int) : setMany st [(k, v)] t = cacheSet st k v t := rfl

/-! ### Evaluation lemmas for the version registry -/

theorem function_namespace_fst (f : PyFunc) (args : List PyVal) :
    (function_namespace f args).1 = fname_of f := by
  unfold function_namespace fname_of
  dsimp only
  split <;> split <;> rfl

theorem memoize_version_fst (ns : String) (f : PyFunc) (args : List PyVal)
    (tmo : Option Int) (reset : Bool) (st : Store) (sup : Supply) :
    (memoize_version ns f args tmo reset st sup).1.1 = fname_of f := by
  rw [← function_namespace_fst f args]
  unfold memoize_version
  rcases h : function_namespace f args with ⟨fn, insOpt⟩
  cases insOpt <;> simp only [h] <;> split <;> split <;> rfl

theorem memoize_version_present_plain (ns : String) (f : PyFunc)
    (args : List PyVal) (tmo : Option Int) (st : Store) (sup : Supply)
    (fn : String) (h : function_namespace f args = (fn, Option.none))
    (hf : cacheGet st (memvname fn) ≠ PyVal.none) :
    memoize_version ns f args tmo false st sup =
      ((fn, decode (cacheGet st (memvname fn))), st, sup) := by
  unfold memoize_version
  rw [h]
  simp [hf]

theorem memoize_version_present_inst (ns : String) (f : PyFunc)
    (args : List PyVal) (tmo : Option Int) (st : Store) (sup : Supply)
    (fn ins : String) (h : function_namespace f args = (fn, some ins))
    (hf : cacheGet st (memvname fn) ≠ PyVal.none)
    (hi : cacheGet st (memvname ins) ≠ PyVal.none) :
    memoize_version ns f args tmo false st sup =
      ((fn, decode (cacheGet st (memvname fn)) ++
            decode (cacheGet st (memvname ins))), st, sup) := by
  unfold memoize_version
  rw [h]
  simp [hf, hi]

theorem memoize_version_reset_plain (ns : String) (f : PyFunc)
    (args : List PyVal) (tmo : Option Int) (st : Store) (sup : Supply)
    (fn : String) (h : function_namespace f args = (fn, Option.none))
    (hf : cacheGet st (memvname fn) ≠ PyVal.none) :
    memoize_version ns f args tmo true st sup =
      ((fn, (memoize_make_version_hash ns sup).1),
       cacheSet st (memvname fn)
         (PyVal.str (memoize_make_version_hash ns sup).1) tmo,
       (memoize_make_version_hash ns sup).2) := by
  unfold memoize_version
  rw [h]
  simp [hf, setMany_singleton]

theorem memoize_version_reset_inst (ns : String) (f : PyFunc)
    (args : List PyVal) (tmo : Option Int) (st : Store) (sup : Supply)
    (fn ins : String) (h : function_namespace f args = (fn, some ins))
    (hf : cacheGet st (memvname fn) ≠ PyVal.none)
    (hi : cacheGet st (memvname ins) ≠ PyVal.none) :
    memoize_version ns f args tmo true st sup =
      ((fn, (memoize_make_version_hash ns sup).1),
       cacheSet st (memvname ins)
         (PyVal.str (memoize_make_version_hash ns sup).1) tmo,
       (memoize_make_version_hash ns sup).2) := by
  unfold memoize_version
  rw [h]
  simp [hf, hi, setMany_singleton]

theorem memoize_version_reset_store (ns : String) (f : PyFunc)
    (args : List PyVal) (tmo : Option Int) (st : Store) (sup : Supply) :
    (memoize_version ns f args tmo true st sup).2.1 =
      cacheSet st (last_version_key f args)
        (PyVal.str (memoize_version ns f args tmo true st sup).1.2) tmo := by
  unfold memoize_version last_version_key
  rcases h : function_namespace f args with ⟨fn, insOpt⟩
  cases insOpt with
  | none =>
    by_cases hv0 : cacheGet st (memvname fn) = PyVal.none <;>
      simp [hv0, setMany_singleton]
  | some ins =>
    by_cases hv0 : cacheGet st (memvname fn) = PyVal.none <;>
      by_cases hv1 : cacheGet st (memvname ins) = PyVal.none <;>
        simp [hv0, hv1, setMany_singleton]

theorem make_cache_key_of_present (ns : String)
    (mn : Option (String → String)) (tmo : Option Int) (f : PyFunc)
    (args : List PyVal) (kwargs : List (String × PyVal)) (st : Store)
    (sup : Supply)
    (h : ∀ vk ∈ version_keys f args, cacheGet st vk ≠ PyVal.none) :
    make_cache_key ns mn tmo f args kwargs st sup =
      (key_hash mn f args kwargs ++ version_join st f args, st, sup) := by
  rcases hfn : function_namespace f args with ⟨fn, insOpt⟩
  have hfn1 : fn = fname_of f := by
    rw [← function_namespace_fst f args, hfn]
  cases insOpt with
  | none =>
    have hf := h (memvname fn) (by simp [version_keys, hfn])
    unfold make_cache_key
    rw [memoize_version_present_plain ns f args tmo st sup fn hfn hf]
    unfold key_hash version_join
    rw [hfn, hfn1]
  | some ins =>
    have hf := h (memvname fn) (by simp [version_keys, hfn])
    have hi := h (memvname ins) (by simp [version_keys, hfn])
    unfold make_cache_key
    rw [memoize_version_present_inst ns f args tmo st sup fn ins hfn hf hi]
    unfold key_hash version_join
    rw [hfn, hfn1]


/-! ### kwGet / find? bookkeeping -/

theorem find?_eq_none_of_not_mem_keys (kwargs : List (String × PyVal))
    (name : String) (h : name ∉ kwargs.map (fun p => p.1)) :
    kwargs.find? (fun p => p.1 == name) = Option.none := by
  rw [List.find?_eq_none]
  intro p hp hbeq
  exact h (List.mem_map.mpr ⟨p, hp, by simpa using hbeq⟩)

theorem find?_eq_none_of_kwGet_none (kwargs : List (String × PyVal))
    (name : String) (hn : NoNoneKwargs kwargs)
    (h : kwGet kwargs name = PyVal.none) :
    kwargs.find? (fun p => p.1 == name) = Option.none := by
  rcases hf : kwargs.find? (fun p => p.1 == name) with _ | p
  · exact hf
  · have hmem := List.mem_of_find?_eq_some hf
    have hv : kwGet kwargs name = p.2 := by simp [kwGet, hf]
    exact absurd (hv.symm.trans h) (hn p hmem)

theorem index_ge_of_mem_drop (l : List String) (hnd : l.Nodup) (n i : Nat)
    (name : String) (hi : l.get? i = some name) (hmem : name ∈ l.drop n) :
    n ≤ i := by
  obtain ⟨j, hj⟩ := List.mem_iff_get?.mp hmem
  rw [List.get?_drop] at hj
  have hlen : i < l.length := by
    rcases List.get?_eq_some.mp hi with ⟨hl, _⟩
    exact hl
  have := List.get?_inj hlen hnd (hi.trans hj.symm)
  omega

theorem headD_eq_getD_zero {α : Type} (l : List α) (d : α) :
    l.headD d = l.getD 0 d := by
  cases l <;> rfl

theorem not_selfhead_of_cond (f : PyFunc) (i : Nat) (m_arg : String)
    (hgetD : f.argNames.getD i ("") = m_arg)
    (hA : ¬(i == 0 && (m_arg == "self" || m_arg == "cls")) = true) :
    ¬(i == 0 && isSelfHead f) = true := by
  intro hcon
  have hcon' : i = 0 ∧ isSelfHead f = true := by simpa using hcon
  rcases hcon' with ⟨hi0, hsh⟩
  subst hi0
  unfold isSelfHead at hsh
  rw [headD_eq_getD_zero, hgetD] at hsh
  exact hA (by simpa using hsh)

/-! ### The canonical form of `_gen_args` on valid calls -/

theorem gen_args_from_canon (f : PyFunc) (args : List PyVal)
    (kwargs : List (String × PyVal)) (hv : ValidCall f args kwargs)
    (hn : NoNoneKwargs kwargs) :
    ∀ (rest : List String) (i c : Nat),
      f.argNames.drop i = rest →
      (i ≤ args.length → c = 0) →
      (args.length ≤ i → c + args.length ≤ i) →
      gen_args_from f args kwargs rest i c =
        (List.range' i rest.length).map (canonVal f args kwargs) := by
  obtain ⟨hnd, hna, _hknd, hkmem, _hself⟩ := hv
  intro rest
  induction rest with
  | nil => intro i c _ _ _; simp [gen_args_from]
  | cons m_arg tail ih =>
    intro i c hdrop h0 h1
    have hlen : i < f.argNames.length := by
      have := congrArg List.length hdrop
      simp [List.length_drop] at this
      omega
    have hget? : f.argNames.get? i = some m_arg := by
      have hh : (f.argNames.drop i).get? 0 = some m_arg := by rw [hdrop]; rfl
      rw [List.get?_drop] at hh
      simpa using hh
    have hgetD : f.argNames.getD i ("") = m_arg := by
      rw [List.getD_eq_getElem?_getD, ← List.get?_eq_getElem?, hget?]
      rfl
    have htail : f.argNames.drop (i + 1) = tail := by
      have hh : List.drop 1 (f.argNames.drop i) = tail := by rw [hdrop]; rfl
      rwa [List.drop_drop] at hh
    have hrange : List.range' i (m_arg :: tail).length =
        i :: List.range' (i + 1) tail.length := by
      simp [List.range'_succ]
    rw [hrange]
    by_cases hA : (i == 0 && (m_arg == "self" || m_arg == "cls")) = true
    · -- receiver slot
      have hA' : i = 0 ∧ (m_arg = "self" ∨ m_arg = "cls") := by simpa using hA
      have hc0 : c = 0 := h0 (by omega)
      have hcanon : canonVal f args kwargs i =
          PyVal.str (pyRepr (args.headD PyVal.none)) := by
        unfold canonVal isSelfHead
        rcases hA' with ⟨hi0, hsc⟩
        subst hi0
        rw [headD_eq_getD_zero, hgetD]
        rcases hsc with h5 | h5 <;> simp [h5]
      simp only [gen_args_from, hA, if_true, List.map_cons, hcanon]
      refine congrArg _ (ih (i + 1) c htail ?_ ?_)
      · intro _; exact hc0
      · intro hna1
        rcases hA' with ⟨hi0, _⟩
        subst hi0
        omega
    · by_cases hB : kwGet kwargs m_arg ≠ PyVal.none
      · -- consumed from kwargs
        obtain ⟨p, hfind, hpv⟩ :
            ∃ p, kwargs.find? (fun q => q.1 == m_arg) = some p ∧
              kwGet kwargs m_arg = p.2 := by
          rcases hf : kwargs.find? (fun q => q.1 == m_arg) with _ | p
          · exact absurd (by simp [kwGet, hf]) hB
          · exact ⟨p, hf, by simp [kwGet, hf]⟩
        have hge : args.length ≤ i := by
          by_contra hlt
          push_neg at hlt
          have hpmem := List.mem_of_find?_eq_some hfind
          have hp1 : p.1 = m_arg := by
            have := List.find?_some hfind
            simpa using this
          have hmemd : m_arg ∈ f.argNames.drop args.length := by
            have := hkmem p hpmem
            rwa [hp1] at this
          have := index_ge_of_mem_drop f.argNames hnd args.length i m_arg
            hget? hmemd
          omega
        have hcanon : canonVal f args kwargs i = kwGet kwargs m_arg := by
          unfold canonVal
          rw [if_neg (not_selfhead_of_cond f i m_arg hgetD hA)]
          unfold boundAt
          rw [if_neg (by omega), hgetD, hfind]
          simp [hpv]
        simp only [gen_args_from]
        rw [if_neg (by simpa using hA), if_pos hB, List.map_cons, hcanon]
        refine congrArg _ (ih (i + 1) (c + 1) htail ?_ ?_)
        · intro h5; omega
        · intro _; have := h1 hge; omega
      · push_neg at hB
        by_cases hC : i - c < args.length
        · -- positional
          have hilt : i < args.length := by
            rcases Nat.lt_or_ge i args.length with h5 | h5
            · exact h5
            · exfalso
              have := h1 h5
              omega
          have hc0 : c = 0 := h0 (by omega)
          subst hc0
          have hcanon : canonVal f args kwargs i = args.getD i PyVal.none := by
            unfold canonVal
            rw [if_neg (not_selfhead_of_cond f i m_arg hgetD hA)]
            unfold boundAt
            rw [if_pos hilt]
            rfl
          simp only [gen_args_from]
          rw [if_neg (by simpa using hA), if_neg (by simpa using hB),
            if_pos hC, List.map_cons]
          simp only [Nat.sub_zero]
          rw [hcanon]
          refine congrArg _ (ih (i + 1) 0 htail ?_ ?_)
          · intro _; rfl
          · intro h5; omega
        · -- default or unbound
          have hge : args.length ≤ i := by
            rcases Nat.lt_or_ge i args.length with h5 | h5
            · exfalso
              have hc0 := h0 (by omega)
              omega
            · exact h5
          have hfind : kwargs.find? (fun q => q.1 == m_arg) = Option.none :=
            find?_eq_none_of_kwGet_none kwargs m_arg hn hB
          have hbound : (boundAt f args kwargs i).getD PyVal.none =
              dfGet f.argNames f.defaults m_arg := by
            unfold boundAt dfGet
            rw [if_neg (by omega), hgetD, hfind]
          have hcanon : canonVal f args kwargs i =
              dfGet f.argNames f.defaults m_arg := by
            unfold canonVal
            rw [if_neg (not_selfhead_of_cond f i m_arg hgetD hA)]
            exact hbound
          by_cases hD : dfGet f.argNames f.defaults m_arg ≠ PyVal.none
          · simp only [gen_args_from]
            rw [if_neg (by simpa using hA), if_neg (by simpa using hB),
              if_neg hC, if_pos hD, List.map_cons, hcanon]
            refine congrArg _ (ih (i + 1) c htail ?_ ?_)
            · intro h5; omega
            · intro _; have := h1 hge; omega
          · push_neg at hD
            simp only [gen_args_from]
            rw [if_neg (by simpa using hA), if_neg (by simpa using hB),
              if_neg hC, if_neg (by simpa using hD), List.map_cons, hcanon, hD]
            refine congrArg _ (ih (i + 1) c htail ?_ ?_)
            · intro h5; omega
            · intro _; have := h1 hge; omega

/-- `_gen_args` on a valid call with no `None`-valued keyword arguments
yields exactly the canonical sequence of effectively bound values. -/
theorem gen_args_canon (f : PyFunc) (args : List PyVal)
    (kwargs : List (String × PyVal)) (hv : ValidCall f args kwargs)
    (hn : NoNoneKwargs kwargs) :
    gen_args f args kwargs =
      (List.range' 0 f.argNames.length).map (canonVal f args kwargs) := by
  have := gen_args_from_canon f args kwargs hv hn f.argNames 0 0
    (by simp) (fun _ => rfl) (fun h => by omega)
  simpa [gen_args] using this

theorem isSelfHead_headD (f : PyFunc) (h : isSelfHead f = true) :
    f.argNames.headD ("") = "self" ∨ f.argNames.headD ("") = "cls" := by
  unfold isSelfHead at h
  simpa using h

theorem argNames_ne_nil_of_selfHead (f : PyFunc) (h : isSelfHead f = true) :
    f.argNames ≠ [] := by
  intro hnil
  rcases isSelfHead_headD f h with h5 | h5 <;> rw [hnil] at h5 <;>
    simp at h5

theorem gen_args_eq_of_bound_eq (f : PyFunc) (args1 args2 : List PyVal)
    (kw1 kw2 : List (String × PyVal))
    (hv1 : ValidCall f args1 kw1) (hv2 : ValidCall f args2 kw2)
    (hn1 : NoNoneKwargs kw1) (hn2 : NoNoneKwargs kw2)
    (hb : ∀ i, i < f.argNames.length →
      boundAt f args1 kw1 i = boundAt f args2 kw2 i) :
    gen_args f args1 kw1 = gen_args f args2 kw2 := by
  rw [gen_args_canon f args1 kw1 hv1 hn1, gen_args_canon f args2 kw2 hv2 hn2]
  refine List.map_congr_left ?_
  intro i hi
  have hi' : i < f.argNames.length := by
    have := List.mem_range'_1.mp hi
    omega
  unfold canonVal
  by_cases hs : (i == 0 && isSelfHead f) = true
  · rw [if_pos hs, if_pos hs]
    have hs' : i = 0 ∧ isSelfHead f = true := by simpa using hs
    rcases hs' with ⟨hi0, hsh⟩
    subst hi0
    have hne1 : args1 ≠ [] := hv1.2.2.2.2 (isSelfHead_headD f hsh)
    have hne2 : args2 ≠ [] := hv2.2.2.2.2 (isSelfHead_headD f hsh)
    have hb0 := hb 0 hi'
    unfold boundAt at hb0
    rw [if_pos (List.length_pos.mpr hne1), if_pos (List.length_pos.mpr hne2)]
      at hb0
    have hds : args1.getD 0 PyVal.none = args2.getD 0 PyVal.none := by
      simpa using hb0
    rw [headD_eq_getD_zero, headD_eq_getD_zero, hds]
  · rw [if_neg hs, if_neg hs, hb i hi']

/-- Claim C1 (amended): for a memoized callable and any two valid calls
that bind the same effective values to the same declared parameters —
positionally, by keyword, or by falling back to the declared default — the
derived cache key is identical, provided the version tokens seen by the
two derivations are unchanged and provided additionally that neither call
passes a keyword argument whose value is `None` (the canonicalizer treats
such a keyword as not supplied and substitutes the declared default, which
the counterexample below exploits). -/
theorem equivalent_calls_same_cache_key (ns : String)
    (mn : Option (String → String)) (tmo : Option Int) (f : PyFunc)
    (args1 args2 : List PyVal) (kw1 kw2 : List (String × PyVal))
    (st : Store) (sup : Supply)
    (hc : f.callable_ = true)
    (hv1 : ValidCall f args1 kw1) (hv2 : ValidCall f args2 kw2)
    (hn1 : NoNoneKwargs kw1) (hn2 : NoNoneKwargs kw2)
    (hb : ∀ i, i < f.argNames.length →
      boundAt f args1 kw1 i = boundAt f args2 kw2 i)
    (htok : (memoize_version ns f args1 tmo false st sup).1.2 =
            (memoize_version ns f args2 tmo false st sup).1.2) :
    (make_cache_key ns mn tmo f args1 kw1 st sup).1 =
      (make_cache_key ns mn tmo f args2 kw2 st sup).1 := by
  have hga := gen_args_eq_of_bound_eq f args1 args2 kw1 kw2 hv1 hv2 hn1 hn2 hb
  simp only [make_cache_key, memoize_version_fst, hc, if_true, hga, htok]

/-- Claim C1, as stated, fails on the code: for `def f(a, b=5)` the calls
`f(1, None)` and `f(1, b=None)` bind the same effective values to `a` and
`b` and read the same version token, yet canonicalize to `(1, None)` versus
`(1, 5)` and so derive different cache keys. -/
theorem equivalent_calls_counterexample :
    ValidCall
      { module := "m", qualname := "f", argNames := ["a", "b"],
        defaults := [PyVal.int 5], self_ := Option.none,
        selfIsClass := false, callable_ := true }
      [PyVal.int 1, PyVal.none] [] ∧
    ValidCall
      { module := "m", qualname := "f", argNames := ["a", "b"],
        defaults := [PyVal.int 5], self_ := Option.none,
        selfIsClass := false, callable_ := true }
      [PyVal.int 1] [("b", PyVal.none)] ∧
    (∀ i, i < 2 →
      boundAt
        { module := "m", qualname := "f", argNames := ["a", "b"],
          defaults := [PyVal.int 5], self_ := Option.none,
          selfIsClass := false, callable_ := true }
        [PyVal.int 1, PyVal.none] [] i =
      boundAt
        { module := "m", qualname := "f", argNames := ["a", "b"],
          defaults := [PyVal.int 5], self_ := Option.none,
          selfIsClass := false, callable_ := true }
        [PyVal.int 1] [("b", PyVal.none)] i) ∧
    (memoize_version ("")
      { module := "m", qualname := "f", argNames := ["a", "b"],
        defaults := [PyVal.int 5], self_ := Option.none,
        selfIsClass := false, callable_ := true }
      [PyVal.int 1, PyVal.none] Option.none false
      (setMany (fun _ => Option.none)
        [(memvname ("m.f"), PyVal.str ("VTOK00"))] Option.none) []).1.2 =
    (memoize_version ("")
      { module := "m", qualname := "f", argNames := ["a", "b"],
        defaults := [PyVal.int 5], self_ := Option.none,
        selfIsClass := false, callable_ := true }
      [PyVal.int 1] Option.none false
      (setMany (fun _ => Option.none)
        [(memvname ("m.f"), PyVal.str ("VTOK00"))] Option.none) []).1.2 ∧
    (make_cache_key ("") Option.none Option.none
      { module := "m", qualname := "f", argNames := ["a", "b"],
        defaults := [PyVal.int 5], self_ := Option.none,
        selfIsClass := false, callable_ := true }
      [PyVal.int 1, PyVal.none] []
      (setMany (fun _ => Option.none)
        [(memvname ("m.f"), PyVal.str ("VTOK00"))] Option.none) []).1 ≠
    (make_cache_key ("") Option.none Option.none
      { module := "m", qualname := "f", argNames := ["a", "b"],
        defaults := [PyVal.int 5], self_ := Option.none,
        selfIsClass := false, callable_ := true }
      [PyVal.int 1] [("b", PyVal.none)]
      (setMany (fun _ => Option.none)
        [(memvname ("m.f"), PyVal.str ("VTOK00"))] Option.none) []).1 := by
  refine ⟨by decide, by decide, by decide, by decide, by decide⟩

theorem equivalent_calls_same_cache_key_witness :
    (make_cache_key ("") Option.none Option.none
      { module := "m", qualname := "f", argNames := ["a", "b"],
        defaults := [PyVal.int 5], self_ := Option.none,
        selfIsClass := false, callable_ := true }
      [PyVal.int 1, PyVal.int 2] []
      (setMany (fun _ => Option.none)
        [(memvname ("m.f"), PyVal.str ("VTOK00"))] Option.none) []).1 =
    (make_cache_key ("") Option.none Option.none
      { module := "m", qualname := "f", argNames := ["a", "b"],
        defaults := [PyVal.int 5], self_ := Option.none,
        selfIsClass := false, callable_ := true }
      [PyVal.int 1] [("b", PyVal.int 2)]
      (setMany (fun _ => Option.none)
        [(memvname ("m.f"), PyVal.str ("VTOK00"))] Option.none) []).1 :=
  equivalent_calls_same_cache_key ("") Option.none Option.none
    { module := "m", qualname := "f", argNames := ["a", "b"],
      defaults := [PyVal.int 5], self_ := Option.none,
      selfIsClass := false, callable_ := true }
    [PyVal.int 1, PyVal.int 2] [PyVal.int 1] [] [("b", PyVal.int 2)]
    (setMany (fun _ => Option.none)
      [(memvname ("m.f"), PyVal.str ("VTOK00"))] Option.none) []
    (by decide) (by decide) (by decide) (by decide) (by decide)
    (by decide) (by decide)

theorem kwGet_cons_none (kwargs : List (String × PyVal)) (x name : String)
    (hx : x ∉ kwargs.map (fun p => p.1)) :
    kwGet ((x, PyVal.none) :: kwargs) name = kwGet kwargs name := by
  unfold kwGet
  by_cases h : x = name
  · subst h
    have hfind : List.find? (fun p => p.1 == x) ((x, PyVal.none) :: kwargs) =
        some (x, PyVal.none) := by
      simp [List.find?]
    rw [hfind, find?_eq_none_of_not_mem_keys kwargs x hx]
  · have hfind : List.find? (fun p => p.1 == name)
        ((x, PyVal.none) :: kwargs) =
        List.find? (fun p => p.1 == name) kwargs := by
      have hb : (x == name) = false := by simp [h]
      simp [List.find?, hb]
    rw [hfind]

theorem gen_args_from_kw_congr (f : PyFunc) (args : List PyVal)
    (kw1 kw2 : List (String × PyVal))
    (h : ∀ name, kwGet kw1 name = kwGet kw2 name) :
    ∀ (rest : List String) (i c : Nat),
      gen_args_from f args kw1 rest i c = gen_args_from f args kw2 rest i c := by
  intro rest
  induction rest with
  | nil => intro i c; rfl
  | cons m_arg tail ih =>
    intro i c
    simp only [gen_args_from, h m_arg, ih]

/-- Claim C9: a keyword argument whose value is `None` is treated by the
canonicalizer exactly as if it were not supplied (the `is not None` guards
fall through to the positional/default/`None` resolution), and a declared
default of `None` is likewise treated as no default; consequently a call
passing a parameter explicitly as a `None` keyword produces the same
canonical sequence — and the same cache key, store and supply — as the call
omitting that keyword. -/
theorem none_keyword_equals_omitted (ns : String)
    (mn : Option (String → String)) (tmo : Option Int) (f : PyFunc)
    (args : List PyVal) (kwargs : List (String × PyVal)) (x : String)
    (st : Store) (sup : Supply)
    (hx : x ∉ kwargs.map (fun p => p.1))
    (hc : f.callable_ = true) :
    gen_args f args ((x, PyVal.none) :: kwargs) = gen_args f args kwargs ∧
    make_cache_key ns mn tmo f args ((x, PyVal.none) :: kwargs) st sup =
      make_cache_key ns mn tmo f args kwargs st sup ∧
    (∀ (ps : List String) (ds : List PyVal) (p : String),
      declaredDefault ps ds p = some PyVal.none →
      dfGet ps ds p = dfGet ps [] p) := by
  have hga : gen_args f args ((x, PyVal.none) :: kwargs) =
      gen_args f args kwargs := by
    unfold gen_args
    exact gen_args_from_kw_congr f args ((x, PyVal.none) :: kwargs) kwargs
      (fun name => kwGet_cons_none kwargs x name hx) f.argNames 0 0
  refine ⟨hga, ?_, ?_⟩
  · simp only [make_cache_key, hc, if_true, hga]
  · intro ps ds p hdd
    unfold dfGet declaredDefault
    unfold declaredDefault at hdd
    rw [hdd]
    simp

theorem none_keyword_equals_omitted_witness :
    gen_args
      { module := "m", qualname := "g", argNames := ["a", "b"],
        defaults := [], self_ := Option.none, selfIsClass := false,
        callable_ := true }
      [PyVal.int 1] [("b", PyVal.none)] =
    gen_args
      { module := "m", qualname := "g", argNames := ["a", "b"],
        defaults := [], self_ := Option.none, selfIsClass := false,
        callable_ := true }
      [PyVal.int 1] [] ∧
    make_cache_key ("") Option.none Option.none
      { module := "m", qualname := "g", argNames := ["a", "b"],
        defaults := [], self_ := Option.none, selfIsClass := false,
        callable_ := true }
      [PyVal.int 1] [("b", PyVal.none)]
      (setMany (fun _ => Option.none)
        [(memvname ("m.g"), PyVal.str ("VTOK00"))] Option.none) [] =
    make_cache_key ("") Option.none Option.none
      { module := "m", qualname := "g", argNames := ["a", "b"],
        defaults := [], self_ := Option.none, selfIsClass := false,
        callable_ := true }
      [PyVal.int 1] []
      (setMany (fun _ => Option.none)
        [(memvname ("m.g"), PyVal.str ("VTOK00"))] Option.none) [] ∧
    (∀ (ps : List String) (ds : List PyVal) (p : String),
      declaredDefault ps ds p = some PyVal.none →
      dfGet ps ds p = dfGet ps [] p) :=
  none_keyword_equals_omitted ("") Option.none Option.none
    { module := "m", qualname := "g", argNames := ["a", "b"],
      defaults := [], self_ := Option.none, selfIsClass := false,
      callable_ := true }
    [PyVal.int 1] [] "b"
    (setMany (fun _ => Option.none)
      [(memvname ("m.g"), PyVal.str ("VTOK00"))] Option.none) []
    (by decide) (by decide)

/-- Claim C3: on a decorated call whose skip predicate does not fire, a
backend read returning the absent sentinel (`None`) is a miss — the wrapped
function runs, its result is stored under the cache key with the call-time
timeout, and the result is returned — while any non-`None` read is a hit:
that value is returned and the result does not depend on the wrapped
function at all.  A stored entry whose value is itself `None` behaves
exactly like a miss. -/
theorem memoized_call_hit_miss (ns : String) (mn : Option (String → String))
    (tmo : Option Int) (f : PyFunc)
    (impl impl2 : List PyVal → List (String × PyVal) → PyVal)
    (args : List PyVal) (kwargs : List (String × PyVal)) (st : Store)
    (sup : Supply) (r : String × Store × Supply)
    (hr : make_cache_key ns mn tmo f args kwargs st sup = r) :
    (cacheGet r.2.1 r.1 = PyVal.none →
      decorated_call ns mn tmo false f impl args kwargs st sup =
        (impl args kwargs, cacheSet r.2.1 r.1 (impl args kwargs) tmo,
         r.2.2)) ∧
    (∀ v, v ≠ PyVal.none → cacheGet r.2.1 r.1 = v →
      decorated_call ns mn tmo false f impl args kwargs st sup =
        (v, r.2.1, r.2.2) ∧
      decorated_call ns mn tmo false f impl2 args kwargs st sup =
        decorated_call ns mn tmo false f impl args kwargs st sup) ∧
    (∀ t0, r.2.1 r.1 = some ⟨PyVal.none, t0⟩ →
      decorated_call ns mn tmo false f impl args kwargs st sup =
        (impl args kwargs, cacheSet r.2.1 r.1 (impl args kwargs) tmo,
         r.2.2)) := by
  refine ⟨?_, ?_, ?_⟩
  · intro h
    unfold decorated_call
    rw [hr]
    simp [h]
  · intro v hv hval
    constructor
    · unfold decorated_call
      rw [hr]
      simp [hval, hv]
    · unfold decorated_call
      rw [hr]
      simp [hval, hv]
  · intro t0 h
    have hget : cacheGet r.2.1 r.1 = PyVal.none := by simp [cacheGet, h]
    unfold decorated_call
    rw [hr]
    simp [hget]

theorem memoized_call_hit_miss_witness :
    decorated_call ("") Option.none (some 50) false
      { module := "m", qualname := "h", argNames := ["a"],
        defaults := [], self_ := Option.none, selfIsClass := false,
        callable_ := true }
      (fun _ _ => PyVal.int 9) [PyVal.int 4] []
      (setMany (fun _ => Option.none)
        [(memvname ("m.h"), PyVal.str ("VTOK00"))] Option.none) [] =
    (PyVal.int 9,
     cacheSet
       (make_cache_key ("") Option.none (some 50)
         { module := "m", qualname := "h", argNames := ["a"],
           defaults := [], self_ := Option.none, selfIsClass := false,
           callable_ := true }
         [PyVal.int 4] []
         (setMany (fun _ => Option.none)
           [(memvname ("m.h"), PyVal.str ("VTOK00"))] Option.none) []).2.1
       (make_cache_key ("") Option.none (some 50)
         { module := "m", qualname := "h", argNames := ["a"],
           defaults := [], self_ := Option.none, selfIsClass := false,
           callable_ := true }
         [PyVal.int 4] []
         (setMany (fun _ => Option.none)
           [(memvname ("m.h"), PyVal.str ("VTOK00"))] Option.none) []).1
       (PyVal.int 9) (some 50),
     (make_cache_key ("") Option.none (some 50)
       { module := "m", qualname := "h", argNames := ["a"],
         defaults := [], self_ := Option.none, selfIsClass := false,
         callable_ := true }
       [PyVal.int 4] []
       (setMany (fun _ => Option.none)
         [(memvname ("m.h"), PyVal.str ("VTOK00"))] Option.none) []).2.2) :=
  (memoized_call_hit_miss ("") Option.none (some 50)
    { module := "m", qualname := "h", argNames := ["a"],
      defaults := [], self_ := Option.none, selfIsClass := false,
      callable_ := true }
    (fun _ _ => PyVal.int 9) (fun _ _ => PyVal.int 8) [PyVal.int 4] []
    (setMany (fun _ => Option.none)
      [(memvname ("m.h"), PyVal.str ("VTOK00"))] Option.none) []
    (make_cache_key ("") Option.none (some 50)
      { module := "m", qualname := "h", argNames := ["a"],
        defaults := [], self_ := Option.none, selfIsClass := false,
        callable_ := true }
      [PyVal.int 4] []
      (setMany (fun _ => Option.none)
        [(memvname ("m.h"), PyVal.str ("VTOK00"))] Option.none) [])
    rfl).1 (by decide)

/-- Claim C4: for a callable target the cache key equals the first 16
characters of the base64 encoding of the MD5 digest of the concatenation of
the (possibly name-overridden) function namespace, the repr of the
canonical argument tuple and the repr of the empty keyword dict, followed
by the concatenation of the current version tokens; a non-callable target
bypasses canonicalization and hashes the raw arguments and keyword dict
instead. -/
theorem make_cache_key_formula (ns : String) (mn : Option (String → String))
    (tmo : Option Int) (f : PyFunc) (args : List PyVal)
    (kwargs : List (String × PyVal)) (st : Store) (sup : Supply) :
    (make_cache_key ns mn tmo f args kwargs st sup).1 =
      key_hash mn f args kwargs ++
        (memoize_version ns f args tmo false st sup).1.2 ∧
    key_hash mn f args kwargs =
      (b64encode (md5 (utf8 (
        (match mn with
         | some g => g (fname_of f)
         | Option.none => fname_of f) ++
        (if f.callable_ then tupleStr (gen_args f args kwargs)
         else tupleStr args) ++
        (if f.callable_ then dictStr [] else dictStr kwargs))))).take 16 ∧
    (∀ fn ins a b, function_namespace f args = (fn, some ins) →
      cacheGet st (memvname fn) = PyVal.str a →
      cacheGet st (memvname ins) = PyVal.str b →
      (memoize_version ns f args tmo false st sup).1.2 = a ++ b) ∧
    (∀ fn a, function_namespace f args = (fn, Option.none) →
      cacheGet st (memvname fn) = PyVal.str a →
      (memoize_version ns f args tmo false st sup).1.2 = a) := by
  refine ⟨?_, ?_, ?_, ?_⟩
  · simp only [make_cache_key, key_hash, memoize_version_fst]
  · unfold key_hash
    by_cases hc : f.callable_ <;> simp [hc]
  · intro fn ins a b hfn ha hb
    rw [memoize_version_present_inst ns f args tmo st sup fn ins hfn
      (by rw [ha]; intro hcon; cases hcon) (by rw [hb]; intro hcon; cases hcon)]
    rw [ha, hb]
    rfl
  · intro fn a hfn ha
    rw [memoize_version_present_plain ns f args tmo st sup fn hfn
      (by rw [ha]; intro hcon; cases hcon)]
    rw [ha]
    rfl

theorem make_cache_key_formula_witness :
    (make_cache_key ("") Option.none Option.none
      { module := "m", qualname := "f", argNames := ["a", "b"],
        defaults := [], self_ := Option.none, selfIsClass := false,
        callable_ := true }
      [PyVal.int 1, PyVal.int 2] []
      (setMany (fun _ => Option.none)
        [(memvname ("m.f"), PyVal.str ("VTOK00"))] Option.none) []).1 =
      key_hash Option.none
        { module := "m", qualname := "f", argNames := ["a", "b"],
          defaults := [], self_ := Option.none, selfIsClass := false,
          callable_ := true }
        [PyVal.int 1, PyVal.int 2] [] ++
        (memoize_version ("")
          { module := "m", qualname := "f", argNames := ["a", "b"],
            defaults := [], self_ := Option.none, selfIsClass := false,
            callable_ := true }
          [PyVal.int 1, PyVal.int 2] Option.none false
          (setMany (fun _ => Option.none)
            [(memvname ("m.f"), PyVal.str ("VTOK00"))] Option.none) []).1.2 ∧
    (memoize_version ("")
      { module := "m", qualname := "f", argNames := ["a", "b"],
        defaults := [], self_ := Option.none, selfIsClass := false,
        callable_ := true }
      [PyVal.int 1, PyVal.int 2] Option.none false
      (setMany (fun _ => Option.none)
        [(memvname ("m.f"), PyVal.str ("VTOK00"))] Option.none) []).1.2 =
      "VTOK00" :=
  ⟨(make_cache_key_formula ("") Option.none Option.none
      { module := "m", qualname := "f", argNames := ["a", "b"],
        defaults := [], self_ := Option.none, selfIsClass := false,
        callable_ := true }
      [PyVal.int 1, PyVal.int 2] []
      (setMany (fun _ => Option.none)
        [(memvname ("m.f"), PyVal.str ("VTOK00"))] Option.none) []).1,
   (make_cache_key_formula ("") Option.none Option.none
      { module := "m", qualname := "f", argNames := ["a", "b"],
        defaults := [], self_ := Option.none, selfIsClass := false,
        callable_ := true }
      [PyVal.int 1, PyVal.int 2] []
      (setMany (fun _ => Option.none)
        [(memvname ("m.f"), PyVal.str ("VTOK00"))] Option.none) []).2.2.2
     ("m.f") ("VTOK00") (by decide) (by decide)⟩

/-- Claim C5: a single `_memoize_version` invalidation with `reset=true`
writes back exactly one version key — the most specific one (the
instance-level key when an instance namespace is present, else the
function-level key) — storing the regenerated token under the call's
timeout; every other backend key, in particular the other version key, is
left unchanged, so the two tokens are never both reset in one call. -/
theorem reset_writes_only_most_specific (ns : String) (f : PyFunc)
    (args : List PyVal) (tmo : Option Int) (st : Store) (sup : Supply)
    (r : (String × String) × Store × Supply)
    (hr : memoize_version ns f args tmo true st sup = r) :
    (∀ k, k ≠ last_version_key f args → r.2.1 k = st k) ∧
    r.2.1 (last_version_key f args) = some ⟨PyVal.str r.1.2, tmo⟩ ∧
    (∀ fn ins, function_namespace f args = (fn, some ins) →
      memvname fn ≠ memvname ins →
      r.2.1 (memvname fn) = st (memvname fn)) := by
  have hst := memoize_version_reset_store ns f args tmo st sup
  rw [hr] at hst
  refine ⟨?_, ?_, ?_⟩
  · intro k hk
    rw [hst]
    exact cacheSet_app_ne st (last_version_key f args) k _ tmo hk
  · rw [hst]
    simp [cacheSet]
  · intro fn ins hfn hne
    rw [hst]
    refine cacheSet_app_ne st (last_version_key f args) (memvname fn) _ tmo ?_
    unfold last_version_key
    rw [hfn]
    exact hne

theorem reset_writes_only_most_specific_witness :
    (memoize_version ("")
      { module := "m", qualname := "f", argNames := ["a"],
        defaults := [], self_ := Option.none, selfIsClass := false,
        callable_ := true }
      [] Option.none true
      (setMany (fun _ => Option.none)
        [(memvname ("m.f"), PyVal.str ("VTOK00"))] Option.none)
      [List.replicate 16 0]).2.1
      (last_version_key
        { module := "m", qualname := "f", argNames := ["a"],
          defaults := [], self_ := Option.none, selfIsClass := false,
          callable_ := true } []) =
      some ⟨PyVal.str
        ((memoize_version ("")
          { module := "m", qualname := "f", argNames := ["a"],
            defaults := [], self_ := Option.none, selfIsClass := false,
            callable_ := true }
          [] Option.none true
          (setMany (fun _ => Option.none)
            [(memvname ("m.f"), PyVal.str ("VTOK00"))] Option.none)
          [List.replicate 16 0]).1.2), Option.none⟩ :=
  (reset_writes_only_most_specific ("")
    { module := "m", qualname := "f", argNames := ["a"],
      defaults := [], self_ := Option.none, selfIsClass := false,
      callable_ := true }
    [] Option.none
    (setMany (fun _ => Option.none)
      [(memvname ("m.f"), PyVal.str ("VTOK00"))] Option.none)
    [List.replicate 16 0]
    (memoize_version ("")
      { module := "m", qualname := "f", argNames := ["a"],
        defaults := [], self_ := Option.none, selfIsClass := false,
        callable_ := true }
      [] Option.none true
      (setMany (fun _ => Option.none)
        [(memvname ("m.f"), PyVal.str ("VTOK00"))] Option.none)
      [List.replicate 16 0]) rfl).2.1

/-- Claim C8: `delete_memoized` and `delete_memoized_verhash` called with a
non-callable first argument raise immediately (`DeprecationWarning`),
before any backend operation, leaving the store — data keys and version
keys alike — unchanged. -/
theorem non_callable_invalidation_rejected (ns : String) (t : Target)
    (args : List PyVal) (kwargs : List (String × PyVal)) (st : Store)
    (sup : Supply) (h : t.func.callable_ = false) :
    delete_memoized ns t args kwargs st sup =
      (Except.error ("DeprecationWarning"), st, sup) ∧
    delete_memoized_verhash t st =
      (Except.error ("DeprecationWarning"), st) := by
  unfold delete_memoized delete_memoized_verhash
  simp [h]

theorem non_callable_invalidation_rejected_witness :
    delete_memoized ("")
      { func :=
          { module := "m", qualname := "s", argNames := [],
            defaults := [], self_ := Option.none, selfIsClass := false,
            callable_ := false },
        attrs := Option.none }
      [PyVal.int 1] [] (fun _ => Option.none) [] =
      (Except.error ("DeprecationWarning"), fun _ => Option.none, []) ∧
    delete_memoized_verhash
      { func :=
          { module := "m", qualname := "s", argNames := [],
            defaults := [], self_ := Option.none, selfIsClass := false,
            callable_ := false },
        attrs := Option.none }
      (fun _ => Option.none) =
      (Except.error ("DeprecationWarning"), fun _ => Option.none) :=
  non_callable_invalidation_rejected ("")
    { func :=
        { module := "m", qualname := "s", argNames := [],
          defaults := [], self_ := Option.none, selfIsClass := false,
          callable_ := false },
      attrs := Option.none }
    [PyVal.int 1] [] (fun _ => Option.none) [] rfl

/-- Claim C10: the `delete_memoized` attribute exposed on a decorated
function captures the original undecorated function, which lacks the
`make_cache_key` and `uncached` attributes; invoking it with specific call
arguments therefore raises `AttributeError` instead of deleting that one
key, while the no-argument (version-reset) form still works, touching only
the most specific version key. -/
theorem decorated_delete_attribute (ns : String) (f : PyFunc)
    (args : List PyVal) (kwargs : List (String × PyVal)) (st : Store)
    (sup : Supply) (hc : f.callable_ = true) :
    (¬(args.isEmpty && kwargs.isEmpty) = true →
      delete_memoized ns (decorated_delete_target f) args kwargs st sup =
        (Except.error ("AttributeError"), st, sup)) ∧
    ((args.isEmpty && kwargs.isEmpty) = true →
      delete_memoized ns (decorated_delete_target f) args kwargs st sup =
        (Except.ok (),
         (memoize_version ns f [] Option.none true st sup).2.1,
         (memoize_version ns f [] Option.none true st sup).2.2) ∧
      (∀ k, k ≠ last_version_key f [] →
        (delete_memoized ns (decorated_delete_target f) args kwargs st
          sup).2.1 k = st k)) := by
  constructor
  · intro h
    unfold delete_memoized decorated_delete_target
    simp [hc, h]
  · intro h
    constructor
    · unfold delete_memoized decorated_delete_target
      simp [hc, h]
    · intro k hk
      unfold delete_memoized decorated_delete_target
      simp only [hc, Bool.not_true, if_false, h, if_true]
      rw [memoize_version_reset_store]
      exact cacheSet_app_ne st (last_version_key f []) k _ Option.none hk

theorem decorated_delete_attribute_witness :
    delete_memoized ("")
      (decorated_delete_target
        { module := "m", qualname := "f", argNames := ["a"],
          defaults := [], self_ := Option.none, selfIsClass := false,
          callable_ := true })
      [PyVal.int 1] [] (fun _ => Option.none) [List.replicate 16 0] =
      (Except.error ("AttributeError"), fun _ => Option.none,
       [List.replicate 16 0]) :=
  (decorated_delete_attribute ("")
    { module := "m", qualname := "f", argNames := ["a"],
      defaults := [], self_ := Option.none, selfIsClass := false,
      callable_ := true }
    [PyVal.int 1] [] (fun _ => Option.none) [List.replicate 16 0]
    rfl).1 (by decide)

theorem cacheGet_delete_ne (st : Store) (k k2 : String) (h : k2 ≠ k) :
    cacheGet (cacheDelete st k) k2 = cacheGet st k2 := by
  unfold cacheGet
  rw [cacheDelete_app_ne st k k2 h]

theorem version_join_congr (sta stb : Store) (f : PyFunc) (args : List PyVal)
    (h : ∀ vk ∈ version_keys f args, cacheGet sta vk = cacheGet stb vk) :
    version_join sta f args = version_join stb f args := by
  unfold version_join
  rcases hfn : function_namespace f args with ⟨fn, insOpt⟩
  cases insOpt with
  | none =>
    dsimp only
    rw [h (memvname fn) (by simp [version_keys, hfn])]
  | some ins =>
    dsimp only
    rw [h (memvname fn) (by simp [version_keys, hfn]),
      h (memvname ins) (by simp [version_keys, hfn])]

/-- Claim C6: `delete_memoized(f, *args)` with specific call arguments
rebuilds exactly the cache key of that call (the version tokens being
present, no version write happens), issues a single backend delete of that
one key, and leaves every other backend key — version tokens and all other
argument combinations' cached values — unchanged; the keys derived for
other calls after the delete are identical to those derived before, so
their cached values are still returned. -/
theorem delete_specific_args (ns : String) (t : Target) (a : MemoAttrs)
    (args : List PyVal) (kwargs : List (String × PyVal)) (st : Store)
    (sup : Supply)
    (hc : t.func.callable_ = true)
    (ha : t.attrs = some a)
    (hargs : args ≠ [])
    (hpres : ∀ vk ∈ version_keys a.uncached args,
      cacheGet st vk ≠ PyVal.none) :
    delete_memoized ns t args kwargs st sup =
      (Except.ok (),
       cacheDelete st (key_hash a.make_name a.uncached args kwargs ++
         version_join st a.uncached args), sup) ∧
    (key_hash a.make_name a.uncached args kwargs ++
        version_join st a.uncached args) =
      (make_cache_key ns a.make_name a.cache_timeout a.uncached args kwargs
        st sup).1 ∧
    (∀ k, k ≠ key_hash a.make_name a.uncached args kwargs ++
        version_join st a.uncached args →
      cacheDelete st (key_hash a.make_name a.uncached args kwargs ++
        version_join st a.uncached args) k = st k) ∧
    (∀ (args2 : List PyVal) (kwargs2 : List (String × PyVal)) (sup2 : Supply),
      (∀ vk ∈ version_keys a.uncached args2,
        cacheGet st vk ≠ PyVal.none ∧
        vk ≠ key_hash a.make_name a.uncached args kwargs ++
          version_join st a.uncached args) →
      (make_cache_key ns a.make_name a.cache_timeout a.uncached args2 kwargs2
        (cacheDelete st (key_hash a.make_name a.uncached args kwargs ++
          version_join st a.uncached args)) sup2).1 =
      (make_cache_key ns a.make_name a.cache_timeout a.uncached args2 kwargs2
        st sup2).1) := by
  have hmck := make_cache_key_of_present ns a.make_name a.cache_timeout
    a.uncached args kwargs st sup hpres
  have hae : args.isEmpty = false := by
    cases args with
    | nil => exact absurd rfl hargs
    | cons x l => rfl
  refine ⟨?_, (congrArg Prod.fst hmck).symm, ?_, ?_⟩
  · unfold delete_memoized
    rw [hc, ha]
    simp only [hae, Bool.false_and, Bool.not_true, if_false, hmck]
    simp
  · intro k hk
    exact cacheDelete_app_ne st _ k hk
  · intro args2 kwargs2 sup2 h2
    have h2p : ∀ vk ∈ version_keys a.uncached args2,
        cacheGet (cacheDelete st (key_hash a.make_name a.uncached args
          kwargs ++ version_join st a.uncached args)) vk ≠ PyVal.none := by
      intro vk hvk
      rw [cacheGet_delete_ne st _ vk (h2 vk hvk).2]
      exact (h2 vk hvk).1
    rw [make_cache_key_of_present ns a.make_name a.cache_timeout a.uncached
      args2 kwargs2 _ sup2 h2p,
      make_cache_key_of_present ns a.make_name a.cache_timeout a.uncached
      args2 kwargs2 st sup2 (fun vk hvk => (h2 vk hvk).1)]
    have hvj := version_join_congr
      (cacheDelete st (key_hash a.make_name a.uncached args kwargs ++
        version_join st a.uncached args)) st a.uncached args2
      (fun vk hvk => cacheGet_delete_ne st _ vk (h2 vk hvk).2)
    rw [hvj]

theorem delete_specific_args_witness :
    delete_memoized ("")
      { func :=
          { module := "m", qualname := "f", argNames := [],
            defaults := [], self_ := Option.none, selfIsClass := false,
            callable_ := true },
        attrs := some
          { make_name := Option.none, cache_timeout := Option.none,
            uncached :=
              { module := "m", qualname := "f", argNames := ["a", "b"],
                defaults := [], self_ := Option.none, selfIsClass := false,
                callable_ := true } } }
      [PyVal.int 5, PyVal.int 2] []
      (setMany (fun _ => Option.none)
        [(memvname ("m.f"), PyVal.str ("VTOK00"))] Option.none) [] =
      (Except.ok (),
       cacheDelete
         (setMany (fun _ => Option.none)
           [(memvname ("m.f"), PyVal.str ("VTOK00"))] Option.none)
         (key_hash Option.none
           { module := "m", qualname := "f", argNames := ["a", "b"],
             defaults := [], self_ := Option.none, selfIsClass := false,
             callable_ := true }
           [PyVal.int 5, PyVal.int 2] [] ++
          version_join
            (setMany (fun _ => Option.none)
              [(memvname ("m.f"), PyVal.str ("VTOK00"))] Option.none)
            { module := "m", qualname := "f", argNames := ["a", "b"],
              defaults := [], self_ := Option.none, selfIsClass := false,
              callable_ := true }
            [PyVal.int 5, PyVal.int 2]), []) :=
  (delete_specific_args ("")
    { func :=
        { module := "m", qualname := "f", argNames := [],
          defaults := [], self_ := Option.none, selfIsClass := false,
          callable_ := true },
      attrs := some
        { make_name := Option.none, cache_timeout := Option.none,
          uncached :=
            { module := "m", qualname := "f", argNames := ["a", "b"],
              defaults := [], self_ := Option.none, selfIsClass := false,
              callable_ := true } } }
    { make_name := Option.none, cache_timeout := Option.none,
      uncached :=
        { module := "m", qualname := "f", argNames := ["a", "b"],
          defaults := [], self_ := Option.none, selfIsClass := false,
          callable_ := true } }
    [PyVal.int 5, PyVal.int 2] []
    (setMany (fun _ => Option.none)
      [(memvname ("m.f"), PyVal.str ("VTOK00"))] Option.none) []
    rfl rfl (by decide) (by decide)).1

theorem memoize_make_version_hash_det (ns : String) (hns : ns ≠ "")
    (sup : Supply) :
    memoize_make_version_hash ns sup =
      ((b64encode (uuid3bytes NAMESPACE_DNS ns)).take 6, sup) := by
  unfold memoize_make_version_hash
  rw [if_pos hns]

/-- Claim C7: with a non-empty deployment namespace, version-token
generation is deterministic (seeded by `uuid3(NAMESPACE_DNS, namespace)`,
independent of the random supply), so two `Cache` instances built over
distinct fresh stores with the same namespace lazily create identical
tokens and derive the identical cache key for the same function and
arguments. -/
theorem namespace_deterministic_tokens (ns : String)
    (mn : Option (String → String)) (tmo : Option Int) (f : PyFunc)
    (args : List PyVal) (kwargs : List (String × PyVal))
    (st1 st2 : Store) (sup1 sup2 : Supply)
    (hns : ns ≠ "")
    (h1 : ∀ vk ∈ version_keys f args, cacheGet st1 vk = PyVal.none)
    (h2 : ∀ vk ∈ version_keys f args, cacheGet st2 vk = PyVal.none) :
    (memoize_make_version_hash ns sup1).1 =
      (memoize_make_version_hash ns sup2).1 ∧
    (memoize_version ns f args tmo false st1 sup1).1.2 =
      (memoize_version ns f args tmo false st2 sup2).1.2 ∧
    (make_cache_key ns mn tmo f args kwargs st1 sup1).1 =
      (make_cache_key ns mn tmo f args kwargs st2 sup2).1 := by
  have hver : (memoize_version ns f args tmo false st1 sup1).1.2 =
      (memoize_version ns f args tmo false st2 sup2).1.2 := by
    unfold memoize_version
    rcases hfn : function_namespace f args with ⟨fn, insOpt⟩
    cases insOpt with
    | none =>
      have ha1 := h1 (memvname fn) (by simp [version_keys, hfn])
      have ha2 := h2 (memvname fn) (by simp [version_keys, hfn])
      simp [ha1, ha2, memoize_make_version_hash_det ns hns]
    | some ins =>
      have ha1 := h1 (memvname fn) (by simp [version_keys, hfn])
      have ha2 := h2 (memvname fn) (by simp [version_keys, hfn])
      have hb1 := h1 (memvname ins) (by simp [version_keys, hfn])
      have hb2 := h2 (memvname ins) (by simp [version_keys, hfn])
      simp [ha1, ha2, hb1, hb2, memoize_make_version_hash_det ns hns]
  refine ⟨?_, hver, ?_⟩
  · rw [memoize_make_version_hash_det ns hns,
      memoize_make_version_hash_det ns hns]
  · simp only [make_cache_key, memoize_version_fst, hver]

theorem namespace_deterministic_tokens_witness :
    (memoize_make_version_hash ("team") [List.replicate 16 0]).1 =
      (memoize_make_version_hash ("team") [List.replicate 16 7]).1 ∧
    (memoize_version ("team")
      { module := "m", qualname := "f", argNames := ["a"],
        defaults := [], self_ := Option.none, selfIsClass := false,
        callable_ := true }
      [PyVal.int 1] Option.none false (fun _ => Option.none)
      [List.replicate 16 0]).1.2 =
    (memoize_version ("team")
      { module := "m", qualname := "f", argNames := ["a"],
        defaults := [], self_ := Option.none, selfIsClass := false,
        callable_ := true }
      [PyVal.int 1] Option.none false (fun _ => Option.none)
      [List.replicate 16 7]).1.2 ∧
    (make_cache_key ("team") Option.none Option.none
      { module := "m", qualname := "f", argNames := ["a"],
        defaults := [], self_ := Option.none, selfIsClass := false,
        callable_ := true }
      [PyVal.int 1] [] (fun _ => Option.none) [List.replicate 16 0]).1 =
    (make_cache_key ("team") Option.none Option.none
      { module := "m", qualname := "f", argNames := ["a"],
        defaults := [], self_ := Option.none, selfIsClass := false,
        callable_ := true }
      [PyVal.int 1] [] (fun _ => Option.none) [List.replicate 16 7]).1 :=
  namespace_deterministic_tokens ("team") Option.none Option.none
    { module := "m", qualname := "f", argNames := ["a"],
      defaults := [], self_ := Option.none, selfIsClass := false,
      callable_ := true }
    [PyVal.int 1] [] (fun _ => Option.none) (fun _ => Option.none)
    [List.replicate 16 0] [List.replicate 16 7]
    (by decide) (by decide) (by decide)

theorem str_append_left_cancel_ne (a b c : String) (h : b ≠ c) :
    a ++ b ≠ a ++ c := by
  intro he
  apply h
  have hd := congrArg String.data he
  simp only [String.data_append] at hd
  have hbc := List.append_cancel_left hd
  cases b with
  | mk bd =>
    cases c with
    | mk cd =>
      simp only at hbc
      rw [hbc]

theorem str_append_right_cancel_ne (a b c : String) (h : a ≠ b) :
    a ++ c ≠ b ++ c := by
  intro he
  apply h
  have hd := congrArg String.data he
  simp only [String.data_append] at hd
  have hab := List.append_cancel_right hd
  cases a with
  | mk ad =>
    cases b with
    | mk bd =>
      simp only at hab
      rw [hab]

/-- Claim C2: `delete_memoized` on a bound instance method with no call
arguments resets only that instance's version token: the store changes only
at that instance's version key, a decorated call for a second instance
still returns its previously cached value without recomputation, and every
key derived for the first instance changes (its old entries become
unreachable).  `delete_memoized` on the class-level function resets the
function-level token instead, changing the derived key for every instance
and every argument combination. -/
theorem delete_memoized_instance_vs_class (ns : String)
    (mn : Option (String → String)) (tmoD : Option Int)
    (f bf cf : PyFunc) (fn ins1 ins2 : String)
    (at1 at2 : Option MemoAttrs) (a2 : List PyVal) (v2 : PyVal)
    (tf t1 t2 : String) (st : Store) (sup : Supply)
    (impl : List PyVal → List (String × PyVal) → PyVal)
    (hbfc : bf.callable_ = true) (hcfc : cf.callable_ = true)
    (hfnb : function_namespace bf [] = (fn, some ins1))
    (hfnc : function_namespace cf [] = (fn, Option.none))
    (hfn2 : function_namespace f a2 = (fn, some ins2))
    (h1 : cacheGet st (memvname fn) = PyVal.str tf)
    (h2 : cacheGet st (memvname ins1) = PyVal.str t1)
    (h3 : cacheGet st (memvname ins2) = PyVal.str t2)
    (hd1 : memvname ins1 ≠ memvname fn)
    (hd2 : memvname ins1 ≠ memvname ins2)
    (hfresh1 : (memoize_make_version_hash ns sup).1 ≠ t1)
    (hfreshC : (memoize_make_version_hash ns sup).1 ≠ tf)
    (hv2 : cacheGet st (key_hash mn f a2 [] ++ (tf ++ t2)) = v2)
    (hv2n : v2 ≠ PyVal.none)
    (hk2 : key_hash mn f a2 [] ++ (tf ++ t2) ≠ memvname ins1) :
    delete_memoized ns ⟨bf, at1⟩ [] [] st sup =
      (Except.ok (),
       cacheSet st (memvname ins1)
         (PyVal.str (memoize_make_version_hash ns sup).1) Option.none,
       (memoize_make_version_hash ns sup).2) ∧
    (∀ k, k ≠ memvname ins1 →
      cacheSet st (memvname ins1)
        (PyVal.str (memoize_make_version_hash ns sup).1) Option.none k =
        st k) ∧
    (∀ sup2, decorated_call ns mn tmoD false f impl a2 []
        (cacheSet st (memvname ins1)
          (PyVal.str (memoize_make_version_hash ns sup).1) Option.none)
        sup2 =
      (v2,
       cacheSet st (memvname ins1)
         (PyVal.str (memoize_make_version_hash ns sup).1) Option.none,
       sup2)) ∧
    (∀ (a1 : List PyVal), function_namespace f a1 = (fn, some ins1) →
      ∀ (sup2 : Supply),
      (make_cache_key ns mn tmoD f a1 []
        (cacheSet st (memvname ins1)
          (PyVal.str (memoize_make_version_hash ns sup).1) Option.none)
        sup2).1 ≠
      (make_cache_key ns mn tmoD f a1 [] st sup2).1) ∧
    delete_memoized ns ⟨cf, at2⟩ [] [] st sup =
      (Except.ok (),
       cacheSet st (memvname fn)
         (PyVal.str (memoize_make_version_hash ns sup).1) Option.none,
       (memoize_make_version_hash ns sup).2) ∧
    (∀ (a1 : List PyVal) (ins : String),
      function_namespace f a1 = (fn, some ins) →
      memvname ins ≠ memvname fn →
      cacheGet st (memvname ins) ≠ PyVal.none →
      ∀ (sup2 : Supply),
      (make_cache_key ns mn tmoD f a1 []
        (cacheSet st (memvname fn)
          (PyVal.str (memoize_make_version_hash ns sup).1) Option.none)
        sup2).1 ≠
      (make_cache_key ns mn tmoD f a1 [] st sup2).1) := by
  have hfne : cacheGet st (memvname fn) ≠ PyVal.none := by simp [h1]
  have hi1e : cacheGet st (memvname ins1) ≠ PyVal.none := by simp [h2]
  have hi2e : cacheGet st (memvname ins2) ≠ PyVal.none := by simp [h3]
  have hreset := memoize_version_reset_inst ns bf [] Option.none st sup
    fn ins1 hfnb hfne hi1e
  refine ⟨?_, ?_, ?_, ?_, ?_, ?_⟩
  · -- instance-scoped delete evaluates to a single version write
    unfold delete_memoized
    rw [hbfc]
    simp only [Bool.not_true, Bool.false_eq_true, if_false, List.isEmpty_nil,
      Bool.and_self, if_true, hreset]
  · intro k hk
    exact cacheSet_app_ne st (memvname ins1) k _ Option.none hk
  · -- the second instance still hits its cached value
    intro sup2
    have hpres : ∀ vk ∈ version_keys f a2,
        cacheGet (cacheSet st (memvname ins1)
          (PyVal.str (memoize_make_version_hash ns sup).1) Option.none) vk ≠
          PyVal.none := by
      intro vk hvk
      rw [version_keys, hfn2] at hvk
      simp only [List.mem_cons, List.mem_singleton] at hvk
      rcases hvk with hvk | hvk | hvk
      · subst hvk
        rw [cacheGet_cacheSet, if_neg hd1.symm]
        exact hfne
      · subst hvk
        rw [cacheGet_cacheSet, if_neg hd2.symm]
        exact hi2e
      · cases hvk
    have hmck := make_cache_key_of_present ns mn tmoD f a2 []
      (cacheSet st (memvname ins1)
        (PyVal.str (memoize_make_version_hash ns sup).1) Option.none) sup2
      hpres
    have hvj : version_join
        (cacheSet st (memvname ins1)
          (PyVal.str (memoize_make_version_hash ns sup).1) Option.none)
        f a2 = tf ++ t2 := by
      unfold version_join
      rw [hfn2]
      dsimp only
      rw [cacheGet_cacheSet, if_neg hd1.symm, cacheGet_cacheSet,
        if_neg hd2.symm, h1, h3]
      rfl
    rw [hvj] at hmck
    have hget : cacheGet
        (cacheSet st (memvname ins1)
          (PyVal.str (memoize_make_version_hash ns sup).1) Option.none)
        (key_hash mn f a2 [] ++ (tf ++ t2)) = v2 := by
      rw [cacheGet_cacheSet, if_neg hk2]
      exact hv2
    unfold decorated_call
    rw [hmck]
    simp [hget, hv2n]
  · -- every key of the first instance changes
    intro a1 hfn1 sup2
    have hpres1 : ∀ vk ∈ version_keys f a1,
        cacheGet (cacheSet st (memvname ins1)
          (PyVal.str (memoize_make_version_hash ns sup).1) Option.none) vk ≠
          PyVal.none := by
      intro vk hvk
      rw [version_keys, hfn1] at hvk
      simp only [List.mem_cons, List.mem_singleton] at hvk
      rcases hvk with hvk | hvk | hvk
      · subst hvk
        rw [cacheGet_cacheSet, if_neg hd1.symm]
        exact hfne
      · subst hvk
        rw [cacheGet_cacheSet, if_pos rfl]
        simp
      · cases hvk
    have hpres0 : ∀ vk ∈ version_keys f a1, cacheGet st vk ≠ PyVal.none := by
      intro vk hvk
      rw [version_keys, hfn1] at hvk
      simp only [List.mem_cons, List.mem_singleton] at hvk
      rcases hvk with hvk | hvk | hvk
      · subst hvk; exact hfne
      · subst hvk; exact hi1e
      · cases hvk
    rw [make_cache_key_of_present ns mn tmoD f a1 [] _ sup2 hpres1,
      make_cache_key_of_present ns mn tmoD f a1 [] st sup2 hpres0]
    have hvj1 : version_join
        (cacheSet st (memvname ins1)
          (PyVal.str (memoize_make_version_hash ns sup).1) Option.none)
        f a1 = tf ++ (memoize_make_version_hash ns sup).1 := by
      unfold version_join
      rw [hfn1]
      dsimp only
      rw [cacheGet_cacheSet, if_neg hd1.symm, cacheGet_cacheSet,
        if_pos rfl, h1]
      rfl
    have hvj0 : version_join st f a1 = tf ++ t1 := by
      unfold version_join
      rw [hfn1]
      dsimp only
      rw [h1, h2]
      rfl
    rw [hvj1, hvj0]
    dsimp only
    apply str_append_left_cancel_ne
    exact str_append_left_cancel_ne tf _ t1 hfresh1
  · -- class-scoped delete resets the function-level token
    have hresetc := memoize_version_reset_plain ns cf [] Option.none st sup
      fn hfnc hfne
    unfold delete_memoized
    rw [hcfc]
    simp only [Bool.not_true, Bool.false_eq_true, if_false, List.isEmpty_nil,
      Bool.and_self, if_true, hresetc]
  · -- every instance's keys change after the class-scoped reset
    intro a1 ins hfn1 hne hinse sup2
    have hpres1 : ∀ vk ∈ version_keys f a1,
        cacheGet (cacheSet st (memvname fn)
          (PyVal.str (memoize_make_version_hash ns sup).1) Option.none) vk ≠
          PyVal.none := by
      intro vk hvk
      rw [version_keys, hfn1] at hvk
      simp only [List.mem_cons, List.mem_singleton] at hvk
      rcases hvk with hvk | hvk | hvk
      · subst hvk
        rw [cacheGet_cacheSet, if_pos rfl]
        simp
      · subst hvk
        rw [cacheGet_cacheSet, if_neg hne]
        exact hinse
      · cases hvk
    have hpres0 : ∀ vk ∈ version_keys f a1, cacheGet st vk ≠ PyVal.none := by
      intro vk hvk
      rw [version_keys, hfn1] at hvk
      simp only [List.mem_cons, List.mem_singleton] at hvk
      rcases hvk with hvk | hvk | hvk
      · subst hvk; exact hfne
      · subst hvk; exact hinse
      · cases hvk
    rw [make_cache_key_of_present ns mn tmoD f a1 [] _ sup2 hpres1,
      make_cache_key_of_present ns mn tmoD f a1 [] st sup2 hpres0]
    have hvj1 : version_join
        (cacheSet st (memvname fn)
          (PyVal.str (memoize_make_version_hash ns sup).1) Option.none)
        f a1 =
        (memoize_make_version_hash ns sup).1 ++
          decode (cacheGet st (memvname ins)) := by
      unfold version_join
      rw [hfn1]
      dsimp only
      rw [cacheGet_cacheSet, if_pos rfl, cacheGet_cacheSet, if_neg hne]
      rfl
    have hvj0 : version_join st f a1 =
        tf ++ decode (cacheGet st (memvname ins)) := by
      unfold version_join
      rw [hfn1]
      dsimp only
      rw [h1]
      rfl
    rw [hvj1, hvj0]
    dsimp only
    apply str_append_left_cancel_ne
    exact str_append_right_cancel_ne _ tf _ hfreshC

theorem delete_memoized_instance_vs_class_witness :
    decorated_call ("") Option.none Option.none false
      { module := "m", qualname := "A.add", argNames := ["self", "b"],
        defaults := [], self_ := Option.none, selfIsClass := false,
        callable_ := true }
      (fun _ _ => PyVal.int 99) [PyVal.obj ("I2"), PyVal.int 3] []
      (cacheSet
        (cacheSet
          (setMany (fun _ => Option.none)
            [(memvname ("m.A.add"), PyVal.str ("F0")),
             (memvname ("m.A.add.I1"), PyVal.str ("T1")),
             (memvname ("m.A.add.I2"), PyVal.str ("T2"))] Option.none)
          (key_hash Option.none
            { module := "m", qualname := "A.add", argNames := ["self", "b"],
              defaults := [], self_ := Option.none, selfIsClass := false,
              callable_ := true }
            [PyVal.obj ("I2"), PyVal.int 3] [] ++ ("F0" ++ "T2"))
          (PyVal.int 7) Option.none)
        (memvname ("m.A.add.I1"))
        (PyVal.str (memoize_make_version_hash ("") [List.replicate 16 0]).1)
        Option.none) [] =
    (PyVal.int 7,
     cacheSet
       (cacheSet
         (setMany (fun _ => Option.none)
           [(memvname ("m.A.add"), PyVal.str ("F0")),
            (memvname ("m.A.add.I1"), PyVal.str ("T1")),
            (memvname ("m.A.add.I2"), PyVal.str ("T2"))] Option.none)
         (key_hash Option.none
           { module := "m", qualname := "A.add", argNames := ["self", "b"],
             defaults := [], self_ := Option.none, selfIsClass := false,
             callable_ := true }
           [PyVal.obj ("I2"), PyVal.int 3] [] ++ ("F0" ++ "T2"))
         (PyVal.int 7) Option.none)
       (memvname ("m.A.add.I1"))
       (PyVal.str (memoize_make_version_hash ("") [List.replicate 16 0]).1)
       Option.none, []) :=
  (delete_memoized_instance_vs_class ("") Option.none Option.none
    { module := "m", qualname := "A.add", argNames := ["self", "b"],
      defaults := [], self_ := Option.none, selfIsClass := false,
      callable_ := true }
    { module := "m", qualname := "A.add", argNames := [],
      defaults := [], self_ := some (PyVal.obj ("I1")), selfIsClass := false,
      callable_ := true }
    { module := "m", qualname := "A.add", argNames := [],
      defaults := [], self_ := Option.none, selfIsClass := false,
      callable_ := true }
    ("m.A.add") ("m.A.add.I1") ("m.A.add.I2") Option.none Option.none
    [PyVal.obj ("I2"), PyVal.int 3] (PyVal.int 7) ("F0") ("T1") ("T2")
    (cacheSet
      (setMany (fun _ => Option.none)
        [(memvname ("m.A.add"), PyVal.str ("F0")),
         (memvname ("m.A.add.I1"), PyVal.str ("T1")),
         (memvname ("m.A.add.I2"), PyVal.str ("T2"))] Option.none)
      (key_hash Option.none
        { module := "m", qualname := "A.add", argNames := ["self", "b"],
          defaults := [], self_ := Option.none, selfIsClass := false,
          callable_ := true }
        [PyVal.obj ("I2"), PyVal.int 3] [] ++ ("F0" ++ "T2"))
      (PyVal.int 7) Option.none)
    [List.replicate 16 0] (fun _ _ => PyVal.int 99)
    rfl rfl (by decide) (by decide) (by decide) (by decide) (by decide)
    (by decide) (by decide) (by decide) (by decide) (by decide)
    (by decide) (by decide) (by decide)).2.2.1 []
